import Mathlib

/-!
Verification of the Kathara ISIS configuration generator
(`v8_kathara-isis-generator-simple.py`).

The Python source is shallowly embedded: every function of the generator that
the specification talks about is translated to an executable Lean definition,
with Python dictionaries as association lists, Python strings as Lean
`String`/`List Char`, and Python machine-free integers as `Nat`/`Int`.
File output is modelled as an association list from file names to the
structured content the generator computes; the fixed shell-script template the
program interpolates that content into is injective in the computed fields, so
byte-identity of output files coincides with equality of the structured
content.  Modelling notes that restrict Python behaviour (ASCII digits,
literal-alternation regexes, ...) are recorded on the individual definitions.
-/

set_option maxRecDepth 40000

namespace KatharaGen

/-! ### Basic string helpers (Python semantics, on `List Char`) -/

/-- Python whitespace test, restricted to the ASCII whitespace characters
that can actually occur in the generator's inputs. -/
def isPyWS (c : Char) : Bool :=
  c = ' ' || c = '\t' || c = '\n' || c = '\r'

/-- Model of Python `str.strip()` (whitespace from both ends). -/
def pyStripChars (l : List Char) : List Char :=
  ((l.dropWhile isPyWS).reverse.dropWhile isPyWS).reverse

/-- Model of Python `str.strip()` on `String`. -/
def pyStrip (s : String) : String :=
  String.mk (pyStripChars s.data)

/-- Model of Python `str.strip(cs)` for a character set: remove all leading
and trailing characters belonging to `cs`. -/
def pyStripSet (cs : List Char) (l : List Char) : List Char :=
  ((l.dropWhile (cs.contains ·)).reverse.dropWhile (cs.contains ·)).reverse

/-- Split at the first occurrence of `c` (Python `s.split(c, 1)` when it
succeeds); `none` when `c` does not occur. -/
def splitOnce (c : Char) : List Char → Option (List Char × List Char)
  | [] => none
  | x :: rest =>
    if x = c then some ([], rest)
    else (splitOnce c rest).map (fun p => (x :: p.1, p.2))

/-- `listIsPrefixOf p l` decides whether `p` is a prefix of `l`. -/
def listIsPrefixOf : List Char → List Char → Bool
  | [], _ => true
  | _ :: _, [] => false
  | a :: p, b :: l => a = b && listIsPrefixOf p l

/-- `listIsInfixOf p l` decides whether `p` occurs contiguously in `l`
(Python `p in l` on strings). -/
def listIsInfixOf (p : List Char) : List Char → Bool
  | [] => listIsPrefixOf p []
  | b :: l => listIsPrefixOf p (b :: l) || listIsInfixOf p l

/-- Model of Python `needle in hay` on strings. -/
def pyIn (needle hay : String) : Bool :=
  listIsInfixOf needle.data hay.data

/-- Split a character list at every occurrence of `c` (Python `s.split(c)`);
used to read a regex pattern as its list of `|`-alternatives. -/
def splitChar (c : Char) (l : List Char) : List (List Char) :=
  l.foldr
    (fun x acc =>
      match acc with
      | cur :: rest => if x = c then [] :: cur :: rest else (x :: cur) :: rest
      | [] => [[x]])
    [[]]

/-- ASCII lower-casing of a string (the generator's regex patterns and the
image names in the spec scenarios are ASCII; Python `re.IGNORECASE`
case-folds them the same way). -/
def lowerStr (s : String) : String :=
  String.mk (s.data.map Char.toLower)

/-- Python `str.isdigit()`, restricted to ASCII digits (the generator's
interface indices are ASCII decimal digits). -/
def pyIsDigit (s : String) : Bool :=
  !s.data.isEmpty && s.data.all Char.isDigit

/-! ### Python `int(string)` (decimal literals) -/

/-- Digit run of a Python decimal integer literal after its first digit:
single underscores are allowed between digits, nowhere else.
Accumulates the value. -/
def pyDigitsAux (acc : Nat) : List Char → Option Nat
  | [] => some acc
  | '_' :: c :: rest =>
    if c.isDigit then pyDigitsAux (acc * 10 + (c.toNat - 48)) rest else none
  | c :: rest =>
    if c.isDigit then pyDigitsAux (acc * 10 + (c.toNat - 48)) rest else none

/-- Unsigned part: requires a leading digit. -/
def pyParseNat (l : List Char) : Option Nat :=
  match l with
  | c :: _ => if c.isDigit then pyDigitsAux 0 l else none
  | [] => none

/-- Model of Python `int(s)` for decimal string literals: surrounding
whitespace is stripped, an optional sign is allowed, digits may be grouped
with single underscores.  (Python additionally accepts non-ASCII digits and
exotic Unicode whitespace; network names in this system are ASCII.) -/
def pyParseInt (s : String) : Option Int :=
  match pyStripChars s.data with
  | '-' :: rest => (pyParseNat rest).map (fun n => -(n : Int))
  | '+' :: rest => (pyParseNat rest).map (fun n => (n : Int))
  | l => (pyParseNat l).map (fun n => (n : Int))

/-! ### MD5 (RFC 1321), executable, over byte lists -/

/-- UTF-8 encoding of one character (code point → bytes). -/
def utf8EncodeCharBytes (c : Char) : List Nat :=
  let n := c.toNat
  if n < 0x80 then [n]
  else if n < 0x800 then
    [0xC0 ||| (n >>> 6), 0x80 ||| (n &&& 0x3F)]
  else if n < 0x10000 then
    [0xE0 ||| (n >>> 12), 0x80 ||| ((n >>> 6) &&& 0x3F), 0x80 ||| (n &&& 0x3F)]
  else
    [0xF0 ||| (n >>> 18), 0x80 ||| ((n >>> 12) &&& 0x3F),
     0x80 ||| ((n >>> 6) &&& 0x3F), 0x80 ||| (n &&& 0x3F)]

/-- UTF-8 bytes of a string (Python `s.encode()`). -/
def utf8Bytes (s : String) : List Nat :=
  (s.data.map utf8EncodeCharBytes).flatten

/-- The 64 MD5 sine constants. -/
def md5K : List Nat :=
  [0xd76aa478, 0xe8c7b756, 0x242070db, 0xc1bdceee, 0xf57c0faf, 0x4787c62a, 0xa8304613, 0xfd469501,
   0x698098d8, 0x8b44f7af, 0xffff5bb1, 0x895cd7be, 0x6b901122, 0xfd987193, 0xa679438e, 0x49b40821,
   0xf61e2562, 0xc040b340, 0x265e5a51, 0xe9b6c7aa, 0xd62f105d, 0x02441453, 0xd8a1e681, 0xe7d3fbc8,
   0x21e1cde6, 0xc33707d6, 0xf4d50d87, 0x455a14ed, 0xa9e3e905, 0xfcefa3f8, 0x676f02d9, 0x8d2a4c8a,
   0xfffa3942, 0x8771f681, 0x6d9d6122, 0xfde5380c, 0xa4beea44, 0x4bdecfa9, 0xf6bb4b60, 0xbebfbc70,
   0x289b7ec6, 0xeaa127fa, 0xd4ef3085, 0x04881d05, 0xd9d4d039, 0xe6db99e5, 0x1fa27cf8, 0xc4ac5665,
   0xf4292244, 0x432aff97, 0xab9423a7, 0xfc93a039, 0x655b59c3, 0x8f0ccc92, 0xffeff47d, 0x85845dd1,
   0x6fa87e4f, 0xfe2ce6e0, 0xa3014314, 0x4e0811a1, 0xf7537e82, 0xbd3af235, 0x2ad7d2bb, 0xeb86d391]

/-- The per-round left-rotation amounts. -/
def md5S : List Nat :=
  [7, 12, 17, 22, 7, 12, 17, 22, 7, 12, 17, 22, 7, 12, 17, 22,
   5, 9, 14, 20, 5, 9, 14, 20, 5, 9, 14, 20, 5, 9, 14, 20,
   4, 11, 16, 23, 4, 11, 16, 23, 4, 11, 16, 23, 4, 11, 16, 23,
   6, 10, 15, 21, 6, 10, 15, 21, 6, 10, 15, 21, 6, 10, 15, 21]

/-- 32-bit left rotation. -/
def rotl32 (x s : Nat) : Nat :=
  ((x <<< s) ||| (x >>> (32 - s))) % 4294967296

/-- 32-bit complement. -/
def not32 (x : Nat) : Nat := x ^^^ 0xFFFFFFFF

/-- Little-endian bytes of a 32-bit word. -/
def le4 (n : Nat) : List Nat :=
  [n % 256, (n >>> 8) % 256, (n >>> 16) % 256, (n >>> 24) % 256]

/-- Little-endian bytes of a 64-bit quantity. -/
def le8 (n : Nat) : List Nat :=
  [n % 256, (n >>> 8) % 256, (n >>> 16) % 256, (n >>> 24) % 256,
   (n >>> 32) % 256, (n >>> 40) % 256, (n >>> 48) % 256, (n >>> 56) % 256]

/-- MD5 padding: `0x80`, zeros to 56 mod 64, then the bit length, little-endian. -/
def md5pad (msg : List Nat) : List Nat :=
  msg ++ [0x80] ++
    List.replicate ((56 + 64 - (msg.length + 1) % 64) % 64) 0 ++
    le8 ((msg.length * 8) % 18446744073709551616)

/-- Group a padded message into 64-byte chunks.  Structural recursion on a
fuel bounded by the list length (each step removes 64 ≥ 1 elements), so the
definition reduces in the kernel. -/
def chunks64Aux : Nat → List Nat → List (List Nat)
  | 0, _ => []
  | _ + 1, [] => []
  | fuel + 1, a :: rest => ((a :: rest).take 64) :: chunks64Aux fuel ((a :: rest).drop 64)

/-- Group a padded message into 64-byte chunks. -/
def chunks64 (l : List Nat) : List (List Nat) :=
  chunks64Aux l.length l

/-- Read a 64-byte chunk as 16 little-endian 32-bit words. -/
def toWords : List Nat → List Nat
  | b0 :: b1 :: b2 :: b3 :: rest =>
    (b0 + b1 * 256 + b2 * 65536 + b3 * 16777216) :: toWords rest
  | _ => []

/-- One MD5 round on state `(A, B, C, D)` with message words `M`. -/
def md5round (M : List Nat) (st : Nat × Nat × Nat × Nat) (i : Nat) :
    Nat × Nat × Nat × Nat :=
  let A := st.1
  let B := st.2.1
  let C := st.2.2.1
  let D := st.2.2.2
  let f :=
    if i < 16 then (B &&& C) ||| (not32 B &&& D)
    else if i < 32 then (D &&& B) ||| (not32 D &&& C)
    else if i < 48 then B ^^^ C ^^^ D
    else C ^^^ (B ||| not32 D)
  let g :=
    if i < 16 then i
    else if i < 32 then (5 * i + 1) % 16
    else if i < 48 then (3 * i + 5) % 16
    else (7 * i) % 16
  let F := (f + A + md5K.getD i 0 + M.getD g 0) % 4294967296
  (D, (B + rotl32 F (md5S.getD i 0)) % 4294967296, B, C)

/-- Process one chunk, updating the running digest words. -/
def md5chunk (digest : Nat × Nat × Nat × Nat) (chunk : List Nat) :
    Nat × Nat × Nat × Nat :=
  let M := toWords chunk
  let r := (List.range 64).foldl (md5round M) digest
  ((digest.1 + r.1) % 4294967296,
   (digest.2.1 + r.2.1) % 4294967296,
   (digest.2.2.1 + r.2.2.1) % 4294967296,
   (digest.2.2.2 + r.2.2.2) % 4294967296)

/-- MD5 digest bytes of a byte-list message. -/
def md5Bytes (msg : List Nat) : List Nat :=
  let d := (chunks64 (md5pad msg)).foldl md5chunk
    (0x67452301, 0xefcdab89, 0x98badcfe, 0x10325476)
  le4 d.1 ++ le4 d.2.1 ++ le4 d.2.2.1 ++ le4 d.2.2.2

/-- Lower-case hex character of a nibble. -/
def hexChar (n : Nat) : Char :=
  if n < 10 then Char.ofNat (48 + n) else Char.ofNat (87 + n)

/-- Lower-case hex characters of a byte list (Python `hexdigest()`). -/
def hexdigestChars (bytes : List Nat) : List Char :=
  (bytes.map (fun b => [hexChar (b / 16), hexChar (b % 16)])).flatten

/-- Value of one lower-case hex character. -/
def hexVal (c : Char) : Nat :=
  if 97 ≤ c.toNat then c.toNat - 87 else c.toNat - 48

/-- Value of a lower-case hex string (Python `int(h, 16)`). -/
def hexToNat (l : List Char) : Nat :=
  l.foldl (fun acc c => acc * 16 + hexVal c) 0

/-- `int(hashlib.md5(name.encode()).hexdigest()[:4], 16)`: the first 16 bits
of the MD5 digest of the UTF-8 bytes of `name`, as an unsigned integer. -/
def md5First16 (name : String) : Nat :=
  hexToNat ((hexdigestChars (md5Bytes (utf8Bytes name))).take 4)

/-! ### Configuration (`DEFAULT_CONFIG`) -/

/-- The configuration table of the generator; only the keys the embedded
functions read.  Command-line/file overrides produce another value of this
type, so all definitions take the configuration as a parameter. -/
structure Config where
  ISIS_AREA : String
  ISIS_PROCESS : String
  MGMT_SUBNET : String
  PTP_SUBNET : String
  MULTI_SUBNET : String
  DNS_SERVER : String
  ROUTER_PATTERNS : String
  PC_PATTERNS : String
  MANAGER_PATTERNS : String
deriving DecidableEq

/-- `DEFAULT_CONFIG` of the source. -/
def DEFAULT_CONFIG : Config :=
  ⟨"0001", "MAIN", "192.168.10", "10.0", "10", "1.1.1.1",
   "frr|FRR|quagga|vyos|router",
   "alpine|ubuntu|debian|pc|client|workstation",
   "zabbix|snmp|manager|monitor|nms"⟩

/-- `re.search(pattern, text, re.IGNORECASE)` for the generator's patterns.
All patterns in `DEFAULT_CONFIG` are alternations of literal words with no
regex metacharacters, for which `re.search` succeeds exactly when some
alternative is a case-insensitive substring of the text. -/
def reSearchAlts (pattern text : String) : Bool :=
  (splitChar '|' pattern.data).any
    (fun alt => listIsInfixOf ((String.mk alt).data.map Char.toLower)
      (lowerStr text).data)

/-- `detect_device_type`: classify an image name; first match wins, in the
order router, manager, pc. -/
def detect_device_type (cfg : Config) (image : String) : String :=
  if reSearchAlts cfg.ROUTER_PATTERNS image then "router"
  else if reSearchAlts cfg.MANAGER_PATTERNS image then "manager"
  else if reSearchAlts cfg.PC_PATTERNS image then "pc"
  else "generic"

/-! ### Association lists (Python `dict`) -/

/-- First-match lookup in an association list (Python `m[k]` / `k in m`). -/
def alookup {α : Type} (m : List (String × α)) (k : String) : Option α :=
  match m with
  | [] => none
  | (k2, v) :: rest => if k2 = k then some v else alookup rest k

/-- Key update: overwrite in place when present, append when absent
(Python `m[k] = v`; insertion order of first writes is preserved). -/
def aset {α : Type} (m : List (String × α)) (k : String) (v : α) :
    List (String × α) :=
  match m with
  | [] => [(k, v)]
  | (k2, v2) :: rest =>
    if k2 = k then (k2, v) :: rest else (k2, v2) :: aset rest k v

/-! ### `parse_lab_conf` -/

/-- The left-hand-side pattern `^([^[]+)\[([^]]+)\]$` of `parse_lab_conf`:
a non-empty run without `[`, then a bracketed non-empty run without `]`
reaching the end of the string.  Returns (device, property). -/
def matchDeviceProp (left : List Char) : Option (String × String) :=
  match splitOnce '[' left with
  | none => none
  | some (dev, rest) =>
    if dev.isEmpty then none
    else
      match splitOnce ']' rest with
      | none => none
      | some (inner, after) =>
        if after.isEmpty && !inner.isEmpty then
          some (String.mk dev, String.mk inner)
        else none

/-- One line of `lab.conf` as `parse_lab_conf` reads it: after stripping,
skip blanks, comments and `LAB_` directives; split at the first `=`;
strip whitespace and then quotes from the value; match the device pattern
on the left-hand side.  Result: (device, property, value). -/
def parseLine (line : String) : Option (String × String × String) :=
  let l := pyStripChars line.data
  if l.isEmpty then none
  else if listIsPrefixOf ['#'] l then none
  else if listIsPrefixOf ['L', 'A', 'B', '_'] l then none
  else
    match splitOnce '=' l with
    | none => none
    | some (left, rightRaw) =>
      let right := String.mk (pyStripSet ['"', '\''] (pyStripChars rightRaw))
      (matchDeviceProp left).map (fun p => (p.1, p.2, right))

/-- The mutable state `parse_lab_conf` builds: the `devices` set (insertion
order), and the three dictionaries. -/
structure ParseAcc where
  ds : List String
  nets : List (String × List String)
  imgs : List (String × String)
  tys : List (String × String)
deriving DecidableEq

/-- Processing of one line in the `parse_lab_conf` loop. -/
def parseStep (cfg : Config) (acc : ParseAcc) (line : String) : ParseAcc :=
  match parseLine line with
  | none => acc
  | some (dev, prop, value) =>
    let ds2 := if acc.ds.contains dev then acc.ds else acc.ds ++ [dev]
    if prop = "image" then
      ⟨ds2, acc.nets, aset acc.imgs dev value,
       aset acc.tys dev (detect_device_type cfg value)⟩
    else if pyIsDigit prop then
      ⟨ds2,
       aset acc.nets dev ((alookup acc.nets dev).getD [] ++ [prop ++ ":" ++ value]),
       acc.imgs, acc.tys⟩
    else
      ⟨ds2, acc.nets, acc.imgs, acc.tys⟩

/-- Code-point lexicographic `≤` on character lists: Python compares
strings by code points, a strict prefix sorts first. -/
def charListLe : List Char → List Char → Bool
  | [], _ => true
  | _ :: _, [] => false
  | a :: as, b :: bs =>
    if a = b then charListLe as bs else decide (a.toNat < b.toNat)

/-- Code-point lexicographic `<` on character lists. -/
def charListLt : List Char → List Char → Bool
  | [], [] => false
  | [], _ :: _ => true
  | _ :: _, [] => false
  | a :: as, b :: bs =>
    if a = b then charListLt as bs else decide (a.toNat < b.toNat)

/-- Python string `≤` (code-point lexicographic, as `sorted` uses). -/
def strLeB (a b : String) : Bool := charListLe a.data b.data

/-- Python string `<` (code-point lexicographic). -/
def strLtB (a b : String) : Bool := charListLt a.data b.data

/-- The topology model after parsing. -/
structure GenState where
  devices : List String
  device_networks : List (String × List String)
  device_images : List (String × String)
  device_types : List (String × String)
deriving DecidableEq

/-- The defaults loop at the end of `parse_lab_conf`: ensure every device
has a networks list, an image, and a type. -/
def defaultsStep (acc : List (String × List String) × List (String × String) × List (String × String))
    (d : String) :
    List (String × List String) × List (String × String) × List (String × String) :=
  let n2 := if (alookup acc.1 d).isSome then acc.1 else aset acc.1 d []
  if (alookup acc.2.1 d).isSome then (n2, acc.2.1, acc.2.2)
  else (n2, aset acc.2.1 d "unknown", aset acc.2.2 d "generic")

/-- `parse_lab_conf`, on the list of lines of the input file. -/
def parse_lab_conf (cfg : Config) (content : List String) : GenState :=
  let acc := content.foldl (parseStep cfg) ⟨[], [], [], []⟩
  let devices := List.insertionSort (fun a b => strLeB a b = true) acc.ds
  let fin := devices.foldl defaultsStep (acc.nets, acc.imgs, acc.tys)
  ⟨devices, fin.1, fin.2.1, fin.2.2⟩

/-- `self.device_networks[device]` (total accessor; defined for every device
after parsing, `[]` off-domain). -/
def GenState.networksOf (st : GenState) (d : String) : List String :=
  (alookup st.device_networks d).getD []

/-- `self.device_types[device]` (total accessor; `"generic"` off-domain). -/
def GenState.typeOf (st : GenState) (d : String) : String :=
  (alookup st.device_types d).getD "generic"

/-- `self.device_images[device]` (total accessor; `"unknown"` off-domain). -/
def GenState.imageOf (st : GenState) (d : String) : String :=
  (alookup st.device_images d).getD "unknown"

/-! ### Resolver functions -/

/-- `identify_frr_routers` (the returned list; the empty case makes `run`
exit 0 below, mirroring `sys.exit(0)`). -/
def identify_frr_routers (st : GenState) : List String :=
  st.devices.filter (fun d => st.typeOf d = "router")

/-- Membership test the resolver applies throughout: the device has some
attachment string `"index:network"` that contains the network name as a
substring (Python `network_name in net`). -/
def memberB (st : GenState) (name d : String) : Bool :=
  (st.networksOf d).any (fun net => pyIn name net)

/-- One step of the `is_management_network` loop, updating the pair
(has_manager, has_router). -/
def mgmtStep (st : GenState) (name : String) (fl : Bool × Bool) (d : String) :
    Bool × Bool :=
  if memberB st name d then
    if st.typeOf d = "manager" then (true, fl.2)
    else if st.typeOf d = "router" then (fl.1, true)
    else fl
  else fl

/-- `is_management_network`. -/
def is_management_network (st : GenState) (name : String) : Bool :=
  let r := st.devices.foldl (mgmtStep st name) (false, false)
  r.1 && r.2

/-- The subnet number computed by `generate_ip_for_network` for
non-management networks: numeric names directly (Python `%` on a positive
modulus is `Int.emod`), other names through the first 16 bits of the MD5
digest. -/
def subnet_num (name : String) : Nat :=
  match pyParseInt name with
  | some n => ((n % 250) + 1).toNat
  | none => md5First16 name % 250 + 1

/-- `generate_ip_for_network`. -/
def generate_ip_for_network (st : GenState) (cfg : Config) (name : String)
    (device_index : Nat) (total_devices : Nat) : String :=
  if is_management_network st name then
    cfg.MGMT_SUBNET ++ "." ++ Nat.repr (10 + device_index) ++ "/24"
  else
    let sn := subnet_num name
    if total_devices = 2 then
      cfg.PTP_SUBNET ++ "." ++ Nat.repr sn ++ "." ++ Nat.repr device_index ++ "/30"
    else
      cfg.MULTI_SUBNET ++ "." ++ Nat.repr sn ++ ".0." ++
        Nat.repr (device_index + 1) ++ "/24"

/-- `is_external_network`: some attached device is outside the router set. -/
def is_external_network (st : GenState) (name : String) (frr : List String) :
    Bool :=
  st.devices.any (fun d => memberB st name d && !frr.contains d)

/-- `find_router_on_network`: first router (in router-list order) attached
to the network. -/
def find_router_on_network (st : GenState) (name : String)
    (frr : List String) : Option String :=
  frr.find? (fun r => memberB st name r)

/-- One step of the device-count / device-position loops: `p = (position,
count)`; every attached device increments the count, and the position is set
to the running count when the target device is reached. -/
def countStep (st : GenState) (name target : String) (p : Nat × Nat)
    (d : String) : Nat × Nat :=
  if memberB st name d then
    (if d = target then p.2 + 1 else p.1, p.2 + 1)
  else p

/-- The count/position loop of `get_router_ip_on_network` (source lines
219–223). -/
def countPosGet (st : GenState) (name router : String) : Nat × Nat :=
  st.devices.foldl (countStep st name router) (0, 0)

/-- The count/position loop of `generate_isis_config` (source lines
279–285). -/
def countPosIsis (st : GenState) (name router_name : String) : Nat × Nat :=
  st.devices.foldl (countStep st name router_name) (0, 0)

/-- The count/position loop of `generate_basic_config` (source lines
431–437). -/
def countPosBasic (st : GenState) (name device_name : String) : Nat × Nat :=
  st.devices.foldl (countStep st name device_name) (0, 0)

/-- The host part of an address string: Python `ip.split('/')[0]`. -/
def hostPart (ip : String) : String :=
  String.mk (ip.data.takeWhile (fun c => c ≠ '/'))

/-- `get_router_ip_on_network`: the router's address on the network without
the prefix length, or `none` when the router is not attached.  (The
`frr_routers` argument of the source is unused there too.) -/
def get_router_ip_on_network (st : GenState) (cfg : Config)
    (router name : String) (frr_routers : List String) : Option String :=
  let p := countPosGet st name router
  if p.1 > 0 then
    some (hostPart (generate_ip_for_network st cfg name p.1 p.2))
  else none

/-! ### Script generation

The two generators interpolate the values they compute into fixed shell
templates.  Each template is injective in the interpolated fields, so the
emitted file is modelled by the record of those fields: two output files are
byte-identical exactly when the records are equal. -/

/-- One interface block of a router startup script: interface number,
generated address with prefix, and the network name echoed in the script. -/
structure IfaceConf where
  ifNum : String
  ipAddr : String
  network : String
deriving DecidableEq

/-- The computed content of a router `.startup` file
(`generate_isis_config`). -/
structure RouterScript where
  device : String
  image : String
  ifaces : List IfaceConf
  externalInterface : String
  netAddress : String
  isisProcess : String
  isisIfaces : List String
  dns : String
deriving DecidableEq

/-- One interface block of a non-router startup script. -/
structure BasicIface where
  ifNum : String
  ipAddr : String
deriving DecidableEq

/-- The computed content of a non-router `.startup` file
(`generate_basic_config`). -/
structure BasicScript where
  device : String
  deviceType : String
  image : String
  ifaces : List BasicIface
  gateway : Option String
  dns : String
deriving DecidableEq

/-- Python `"%04d" % n`: decimal, zero-padded to at least four digits. -/
def pad4 (n : Nat) : String :=
  let s := Nat.repr n
  if s.data.length < 4 then
    String.mk (List.replicate (4 - s.data.length) '0') ++ s
  else s

/-- The interface loop of `generate_isis_config`: skips empty entries and
entries without a colon, generates the address from the device's running
position and the device count on the network, and latches the first
interface on an external network as the NAT egress interface. -/
def isisIfaceStep (st : GenState) (cfg : Config) (router_name : String)
    (frr : List String) (acc : List IfaceConf × String) (ni : String) :
    List IfaceConf × String :=
  if ni = "" then acc
  else
    match splitOnce ':' ni.data with
    | none => acc
    | some (ifn, nm) =>
      let if_num := String.mk ifn
      let network_name := String.mk nm
      let p := countPosIsis st network_name router_name
      let ip := generate_ip_for_network st cfg network_name p.1 p.2
      let ext :=
        if is_external_network st network_name frr && acc.2 = "" then
          "eth" ++ if_num
        else acc.2
      (acc.1 ++ [⟨if_num, ip, network_name⟩], ext)

/-- The second interface loop of `generate_isis_config`, collecting the
interfaces enabled for IS-IS (all valid entries). -/
def isisCollectStep (acc : List String) (ni : String) : List String :=
  if ni = "" then acc
  else
    match splitOnce ':' ni.data with
    | none => acc
    | some (ifn, _) => acc ++ [String.mk ifn]

/-- `generate_isis_config`: the computed content of a router's startup
file.  `router_index` is the zero-based index in the router list; the
network entity title is `49.{ISIS_AREA}.0000.0000.{router_index+1:04d}.00`. -/
def generate_isis_config (st : GenState) (cfg : Config) (router_name : String)
    (router_index : Nat) (frr : List String) : RouterScript :=
  let networks := st.networksOf router_name
  let s1 := networks.foldl (isisIfaceStep st cfg router_name frr) ([], "")
  let system_id := "0000.0000." ++ pad4 (router_index + 1)
  let net_address := "49." ++ cfg.ISIS_AREA ++ "." ++ system_id ++ ".00"
  ⟨router_name, st.imageOf router_name, s1.1, s1.2, net_address,
   cfg.ISIS_PROCESS, networks.foldl isisCollectStep [], cfg.DNS_SERVER⟩

/-- The interface/gateway loop of `generate_basic_config`: generates each
address, and appends the host address of the first router found on each
network to the gateway candidates. -/
def basicIfaceStep (st : GenState) (cfg : Config) (device_name : String)
    (frr : List String) (acc : List BasicIface × List String) (ni : String) :
    List BasicIface × List String :=
  if ni = "" then acc
  else
    match splitOnce ':' ni.data with
    | none => acc
    | some (ifn, nm) =>
      let network_name := String.mk nm
      let p := countPosBasic st network_name device_name
      let ip := generate_ip_for_network st cfg network_name p.1 p.2
      let gws :=
        match find_router_on_network st network_name frr with
        | none => acc.2
        | some router =>
          match get_router_ip_on_network st cfg router network_name frr with
          | none => acc.2
          | some rip => acc.2 ++ [rip]
      (acc.1 ++ [⟨String.mk ifn, ip⟩], gws)

/-- The computed content of a non-router's startup file; the default route
uses the first gateway candidate, when any. -/
def basicScriptFor (st : GenState) (cfg : Config) (device_name : String)
    (frr : List String) : BasicScript :=
  let networks := st.networksOf device_name
  let s := networks.foldl (basicIfaceStep st cfg device_name frr) ([], [])
  ⟨device_name, st.typeOf device_name, st.imageOf device_name, s.1,
   s.2.head?, cfg.DNS_SERVER⟩

/-! ### File output and `run` -/

/-- Content of a written `.startup` file. -/
inductive FileContent where
  | routerFile : RouterScript → FileContent
  | basicFile : BasicScript → FileContent
deriving DecidableEq

/-- The output directory: file name to content. -/
abbrev FS := List (String × FileContent)

/-- `safe_write_file` (success path): create or overwrite. -/
def fsWrite (fs : FS) (name : String) (c : FileContent) : FS :=
  aset fs name c

/-- File lookup. -/
def fsLookup (fs : FS) (name : String) : Option FileContent :=
  alookup fs name

/-- `os.path.isfile`. -/
def fsHas (fs : FS) (name : String) : Bool :=
  (alookup fs name).isSome

/-- `generate_basic_config` including its skip-if-exists check: when
`{device}.startup` already exists, nothing is generated or written. -/
def generate_basic_config (st : GenState) (cfg : Config)
    (device_name : String) (frr : List String) (fs : FS) : FS :=
  let f := device_name ++ ".startup"
  if fsHas fs f then fs
  else fsWrite fs f (.basicFile (basicScriptFor st cfg device_name frr))

/-- The router generation loop of `run`: each router, with its index, is
written unconditionally. -/
def routerPass (st : GenState) (cfg : Config) (frr : List String)
    (l : List (Nat × String)) (fs : FS) : FS :=
  l.foldl
    (fun fs p =>
      fsWrite fs (p.2 ++ ".startup")
        (.routerFile (generate_isis_config st cfg p.2 p.1 frr)))
    fs

/-- The non-router generation loop of `run`. -/
def basicPass (st : GenState) (cfg : Config) (frr : List String)
    (l : List String) (fs : FS) : FS :=
  l.foldl
    (fun fs d =>
      if frr.contains d then fs else generate_basic_config st cfg d frr fs)
    fs

/-- Result of a run: exit code and resulting output directory. -/
structure RunResult where
  exitCode : Nat
  fs : FS
deriving DecidableEq

/-- `run` (after configuration loading, on a readable input): parse, identify
routers — exiting 0 with no output when there are none (`sys.exit(0)` in
`identify_frr_routers`) — then generate router files and non-router files. -/
def run (cfg : Config) (content : List String) (fs0 : FS) : RunResult :=
  let st := parse_lab_conf cfg content
  let frr := identify_frr_routers st
  if frr.isEmpty then ⟨0, fs0⟩
  else
    let fs1 := routerPass st cfg frr frr.enum fs0
    let fs2 := basicPass st cfg frr st.devices fs1
    ⟨0, fs2⟩

/-! ### Spec-side definitions used to compare the code with the claims -/

/-- The networkName of a stored attachment string `"index:network"`
(the part after the first colon); used to state the spec's
equality-based membership. -/
def ifaceNameIs (entry name : String) : Bool :=
  match splitOnce ':' entry.data with
  | some p => String.mk p.2 = name
  | none => false

/-- Membership as the specification words it: devices with at least one
interface whose networkName *equals* the given name. -/
def eqMembers (st : GenState) (name : String) : List String :=
  st.devices.filter (fun d => (st.networksOf d).any (fun e => ifaceNameIs e name))

/-- The interface facts the claims predict for a device: every fact line
whose property is a digit string, in input order, rendered as
`"property:value"`. -/
def netFacts (content : List String) (d : String) : List String :=
  content.filterMap (fun line =>
    match parseLine line with
    | some (dev, prop, value) =>
      if dev = d then
        (if pyIsDigit prop then some (prop ++ ":" ++ value) else none)
      else none
    | none => none)

/-- The image facts for a device: the values of its `image` fact lines,
in input order. -/
def imgFacts (content : List String) (d : String) : List String :=
  content.filterMap (fun line =>
    match parseLine line with
    | some (dev, prop, value) =>
      if dev = d then (if prop = "image" then some value else none) else none
    | none => none)

/-- A device name appears on the left-hand side of some fact line of the
input. -/
def appearsLHS (content : List String) (d : String) : Prop :=
  ∃ line ∈ content, ∃ p v, parseLine line = some (d, p, v)

/-! ### Association-list lemmas -/

theorem alookup_aset {α : Type} (m : List (String × α)) (k : String) (v : α)
    (d : String) :
    alookup (aset m k v) d = if k = d then some v else alookup m d := by
  induction m with
  | nil => simp [aset, alookup]
  | cons p rest ih =>
    obtain ⟨k2, v2⟩ := p
    by_cases h1 : k2 = k
    · subst h1
      by_cases h2 : k2 = d <;> simp [aset, alookup, h2]
    · by_cases h2 : k2 = d
      · subst h2
        have : ¬k = k2 := fun h => h1 h.symm
        simp [aset, alookup, h1, this]
      · simp [aset, alookup, h1, h2, ih]

theorem aset_of_lookup_eq {α : Type} (m : List (String × α)) (k : String)
    (v : α) (h : alookup m k = some v) : aset m k v = m := by
  induction m with
  | nil => simp [alookup] at h
  | cons p rest ih =>
    obtain ⟨k2, v2⟩ := p
    by_cases h1 : k2 = k
    · subst h1
      simp [alookup] at h
      simp [aset, h]
    · simp [alookup, h1] at h
      simp [aset, h1, ih h]

/-! ### `is_management_network` characterization -/

theorem mgmtFold_fst (st : GenState) (name : String) (l : List String)
    (fl : Bool × Bool) :
    (l.foldl (mgmtStep st name) fl).1 =
      (fl.1 || l.any (fun d => memberB st name d && decide (st.typeOf d = "manager"))) := by
  induction l generalizing fl with
  | nil => simp
  | cons d rest ih =>
    simp only [List.foldl_cons, List.any_cons]
    rw [ih]
    unfold mgmtStep
    by_cases hm : memberB st name d
    · by_cases h1 : st.typeOf d = "manager"
      · simp [hm, h1]
      · by_cases h2 : st.typeOf d = "router" <;> simp [hm, h1, h2]
    · simp [hm]

theorem mgmtFold_snd (st : GenState) (name : String) (l : List String)
    (fl : Bool × Bool) :
    (l.foldl (mgmtStep st name) fl).2 =
      (fl.2 || l.any (fun d => memberB st name d && decide (st.typeOf d = "router"))) := by
  induction l generalizing fl with
  | nil => simp
  | cons d rest ih =>
    simp only [List.foldl_cons, List.any_cons]
    rw [ih]
    unfold mgmtStep
    by_cases hm : memberB st name d
    · by_cases h1 : st.typeOf d = "manager"
      · simp [hm, h1]
      · by_cases h2 : st.typeOf d = "router" <;> simp [hm, h1, h2]
    · simp [hm]

/-- Helper: the loop of `is_management_network` decides exactly
"some attached device is a manager and some attached device is a router",
with attachment the substring test `memberB`. -/
theorem management_iff (st : GenState) (name : String) :
    is_management_network st name = true ↔
      ((∃ d ∈ st.devices, memberB st name d = true ∧ st.typeOf d = "manager") ∧
       (∃ d ∈ st.devices, memberB st name d = true ∧ st.typeOf d = "router")) := by
  unfold is_management_network
  rw [Bool.and_eq_true, mgmtFold_fst, mgmtFold_snd]
  simp [List.any_eq_true]

/-! ### Concrete inputs used by counterexamples and witnesses -/

/-- The scenario input of the specification (§8): two devices sharing
network `netA`. -/
def c4content : List String :=
  ["R1[image]=\"frr\"", "PC1[image]=\"alpine\"", "R1[0]=\"netA\"", "PC1[0]=\"netA\""]

/-- A lab where a manager and a router share the network `netAB` and no
interface has networkName `netA`. -/
def c2content : List String :=
  ["M1[image]=zabbix", "R1[image]=frr", "M1[0]=netAB", "R1[0]=netAB"]

/-- A lab with two fact lines for the same device and interface index. -/
def c5content : List String := ["A[0]=net1", "A[0]=net2"]

/-! ### Claim C1 -/

/-- C1: on a non-management network, the subnet number is `(n mod 250) + 1`
when the network name parses as an integer `n` (Python `%` on the positive
modulus 250 is `Int.emod`), and
`(first 16 bits of the MD5 digest of the UTF-8 name) mod 250 + 1`
otherwise; in both cases the result lies in `[1, 250]`, and it is computed
by the pure function `subnet_num` of the name alone. -/
theorem c1_subnet_number (name : String) :
    (∀ n : Int, pyParseInt name = some n →
      ((subnet_num name : Nat) : Int) = n % 250 + 1) ∧
    (pyParseInt name = none →
      subnet_num name = md5First16 name % 250 + 1) ∧
    1 ≤ subnet_num name ∧ subnet_num name ≤ 250 := by
  cases h : pyParseInt name with
  | none =>
    have hs : subnet_num name = md5First16 name % 250 + 1 := by
      simp [subnet_num, h]
    have hb := Nat.mod_lt (md5First16 name) (y := 250) (by omega)
    exact ⟨fun n hn => by simp [h] at hn, fun _ => hs, by omega, by omega⟩
  | some m =>
    have h0 : (0 : Int) ≤ m % 250 := Int.emod_nonneg m (by omega)
    have h1 : m % 250 < 250 := Int.emod_lt_of_pos m (by omega)
    have hs : subnet_num name = (m % 250 + 1).toNat := by
      simp [subnet_num, h]
    refine ⟨fun n hn => ?_, fun hn => by simp [h] at hn, ?_, ?_⟩
    · have hm : m = n := by simpa using hn
      subst hm
      rw [hs]
      omega
    · rw [hs]; omega
    · rw [hs]; omega

/-- Witness for C1 at concrete names: `"300"` parses as `300` and yields
subnet number `51 = (300 mod 250) + 1`; `"netA"` does not parse and yields
the MD5-derived number `60 ∈ [1, 250]`. -/
theorem c1_subnet_number_witness :
    ((subnet_num "300" : Nat) : Int) = (300 : Int) % 250 + 1 ∧
    subnet_num "netA" = md5First16 "netA" % 250 + 1 ∧
    1 ≤ subnet_num "netA" ∧ subnet_num "netA" ≤ 250 :=
  ⟨(c1_subnet_number "300").1 300 rfl,
   (c1_subnet_number "netA").2.1 rfl,
   (c1_subnet_number "netA").2.2.1,
   (c1_subnet_number "netA").2.2.2⟩

/-! ### Claim C2 (corrected) -/

/-- C2 counterexample: the claim demands that `is_management_network`
return `false` whenever no device has an interface whose networkName
*equals* the queried name.  On this lab the equality-based member set of
`"netA"` is empty (the only networkName is `"netAB"`), yet the function
returns `true`, because the code tests `network_name in net` — substring
containment over the `"index:network"` attachment strings — not equality. -/
theorem c2_management_counterexample :
    is_management_network (parse_lab_conf DEFAULT_CONFIG c2content) "netA" = true ∧
    eqMembers (parse_lab_conf DEFAULT_CONFIG c2content) "netA" = [] := by
  exact ⟨rfl, rfl⟩

/-- C2 (amended): `is_management_network st name` returns `true` iff the set
of devices having at least one attachment string `"index:network"` that
contains `name` as a substring (Python `in`, the test `memberB`) contains at
least one device of role manager and at least one of role router; in
particular it returns `false` when that substring-based member set is
empty. -/
theorem c2_management_amended (st : GenState) (name : String) :
    is_management_network st name = true ↔
      ((∃ d ∈ st.devices, memberB st name d = true ∧ st.typeOf d = "manager") ∧
       (∃ d ∈ st.devices, memberB st name d = true ∧ st.typeOf d = "router")) :=
  management_iff st name

/-! ### Claim C3 -/

/-- C3: `generate_ip_for_network(networkName, devicePositionOnNetwork,
deviceCountOnNetwork)` yields `{MGMT_SUBNET}.{10+position}/24` on management
networks, `{PTP_SUBNET}.{subnetNumber}.{position}/30` on non-management
networks with exactly two attached devices, and
`{MULTI_SUBNET}.{subnetNumber}.0.{position+1}/24` otherwise
(count 0, 1, or at least 3). -/
theorem c3_generate_address (st : GenState) (cfg : Config) (name : String)
    (idx total : Nat) :
    (is_management_network st name = true →
      generate_ip_for_network st cfg name idx total =
        cfg.MGMT_SUBNET ++ "." ++ Nat.repr (10 + idx) ++ "/24") ∧
    (is_management_network st name = false → total = 2 →
      generate_ip_for_network st cfg name idx total =
        cfg.PTP_SUBNET ++ "." ++ Nat.repr (subnet_num name) ++ "." ++
          Nat.repr idx ++ "/30") ∧
    (is_management_network st name = false → total ≠ 2 →
      generate_ip_for_network st cfg name idx total =
        cfg.MULTI_SUBNET ++ "." ++ Nat.repr (subnet_num name) ++ ".0." ++
          Nat.repr (idx + 1) ++ "/24") := by
  refine ⟨fun h => ?_, fun h h2 => ?_, fun h h2 => ?_⟩
  · simp [generate_ip_for_network, h]
  · simp [generate_ip_for_network, h, h2]
  · simp [generate_ip_for_network, h, h2]

/-- Witness for C3: the management branch on the `c2content` lab
(management network `netA` there, any device count), and the two
non-management branches on the `c4content` lab. -/
theorem c3_generate_address_witness :
    generate_ip_for_network (parse_lab_conf DEFAULT_CONFIG c2content)
        DEFAULT_CONFIG "netA" 1 5 = "192.168.10.11/24" ∧
    generate_ip_for_network (parse_lab_conf DEFAULT_CONFIG c4content)
        DEFAULT_CONFIG "netA" 2 2 = "10.0.60.2/30" ∧
    generate_ip_for_network (parse_lab_conf DEFAULT_CONFIG c4content)
        DEFAULT_CONFIG "netA" 2 3 = "10.60.0.3/24" := by
  refine ⟨?_, ?_, ?_⟩
  · exact ((c3_generate_address (parse_lab_conf DEFAULT_CONFIG c2content)
      DEFAULT_CONFIG "netA" 1 5).1 rfl).trans rfl
  · exact ((c3_generate_address (parse_lab_conf DEFAULT_CONFIG c4content)
      DEFAULT_CONFIG "netA" 2 2).2.1 rfl rfl).trans rfl
  · exact ((c3_generate_address (parse_lab_conf DEFAULT_CONFIG c4content)
      DEFAULT_CONFIG "netA" 2 3).2.2 rfl (by omega)).trans rfl

/-! ### Claim C9 -/

/-- C9: two runs given the same input text, the same configuration values,
and the same starting output directory agree on every computed address,
every role classification, and the full content of every generated file —
the whole generation function is deterministic (the embedding is a pure
function of these inputs; the source has no other input: device order is
the fixed sorted order and the hash fallback is a pure function of the
network name). -/
theorem c9_determinism (cfg1 cfg2 : Config) (content1 content2 : List String)
    (fs1 fs2 : FS) (hc : content1 = content2) (hcfg : cfg1 = cfg2)
    (hfs : fs1 = fs2) :
    run cfg1 content1 fs1 = run cfg2 content2 fs2 ∧
    (∀ name idx total,
      generate_ip_for_network (parse_lab_conf cfg1 content1) cfg1 name idx total =
        generate_ip_for_network (parse_lab_conf cfg2 content2) cfg2 name idx total) ∧
    (∀ d, (parse_lab_conf cfg1 content1).typeOf d =
      (parse_lab_conf cfg2 content2).typeOf d) := by
  subst hc; subst hcfg; subst hfs
  exact ⟨rfl, fun _ _ _ => rfl, fun _ => rfl⟩

/-- Witness for C9 on the §8 scenario input. -/
theorem c9_determinism_witness :
    run DEFAULT_CONFIG c4content [] = run DEFAULT_CONFIG c4content [] ∧
    (parse_lab_conf DEFAULT_CONFIG c4content).typeOf "R1" =
      (parse_lab_conf DEFAULT_CONFIG c4content).typeOf "R1" :=
  ⟨(c9_determinism DEFAULT_CONFIG DEFAULT_CONFIG c4content c4content [] []
      rfl rfl rfl).1,
   (c9_determinism DEFAULT_CONFIG DEFAULT_CONFIG c4content c4content [] []
      rfl rfl rfl).2.2 "R1"⟩

/-! ### Lexicographic-order lemmas -/

theorem charToNat_inj {a b : Char} (h : a.toNat = b.toNat) : a = b :=
  Char.ext (UInt32.toNat.inj h)

theorem charListLe_total : ∀ as bs : List Char,
    charListLe as bs = true ∨ charListLe bs as = true
  | [], bs => Or.inl (by cases bs <;> rfl)
  | _ :: _, [] => Or.inr rfl
  | a :: as, b :: bs => by
    by_cases hab : a = b
    · subst hab
      rcases charListLe_total as bs with h | h
      · exact Or.inl (by simpa [charListLe] using h)
      · exact Or.inr (by simpa [charListLe] using h)
    · have hn : a.toNat ≠ b.toNat := fun h => hab (charToNat_inj h)
      rcases Nat.lt_or_ge a.toNat b.toNat with h | h
      · exact Or.inl (by simp [charListLe, hab, h])
      · have hba : ¬b = a := fun e => hab e.symm
        have : b.toNat < a.toNat := lt_of_le_of_ne h (Ne.symm hn)
        exact Or.inr (by simp [charListLe, hba, this])

theorem charListLe_trans : ∀ as bs cs : List Char,
    charListLe as bs = true → charListLe bs cs = true → charListLe as cs = true
  | [], bs, cs => fun _ _ => by cases cs <;> rfl
  | _ :: _, [], _ => fun h _ => by simp [charListLe] at h
  | _ :: _, _ :: _, [] => fun _ h => by simp [charListLe] at h
  | a :: as, b :: bs, c :: cs => by
    intro h1 h2
    by_cases hab : a = b
    · subst hab
      by_cases hbc : a = c
      · subst hbc
        simp [charListLe] at h1 h2 ⊢
        exact charListLe_trans as bs cs h1 h2
      · simp [charListLe, hbc] at h2 ⊢
        exact h2
    · by_cases hbc : b = c
      · subst hbc
        simp [charListLe, hab] at h1 ⊢
        exact h1
      · simp [charListLe, hab] at h1
        simp [charListLe, hbc] at h2
        by_cases hac : a = c

        · subst hac
          exact absurd (Nat.lt_trans h1 h2) (by omega)
        · simp [charListLe, hac]
          omega

theorem charListLe_iff_lt_or_eq : ∀ as bs : List Char,
    charListLe as bs = true ↔ (charListLt as bs = true ∨ as = bs)
  | [], [] => by simp [charListLe, charListLt]
  | [], _ :: _ => by simp [charListLe, charListLt]
  | _ :: _, [] => by simp [charListLe, charListLt]
  | a :: as, b :: bs => by
    by_cases hab : a = b
    · subst hab
      simpa [charListLe, charListLt] using charListLe_iff_lt_or_eq as bs
    · simp [charListLe, charListLt, hab]

theorem strLe_total : ∀ a b : String, strLeB a b = true ∨ strLeB b a = true :=
  fun a b => charListLe_total a.data b.data

theorem strLe_trans {a b c : String} (h1 : strLeB a b = true)
    (h2 : strLeB b c = true) : strLeB a c = true :=
  charListLe_trans a.data b.data c.data h1 h2

theorem strData_inj : ∀ {a b : String}, a.data = b.data → a = b
  | ⟨_⟩, ⟨_⟩, rfl => rfl

theorem strLt_of_le_of_ne {a b : String} (h1 : strLeB a b = true)
    (h2 : a ≠ b) : strLtB a b = true := by
  rcases (charListLe_iff_lt_or_eq a.data b.data).mp h1 with h | h
  · exact h
  · exact absurd (strData_inj h) h2

instance : IsTotal String (fun a b => strLeB a b = true) := ⟨strLe_total⟩

instance : IsTrans String (fun a b => strLeB a b = true) :=
  ⟨fun _ _ _ => strLe_trans⟩

/-! ### Count/position loop characterization (C10 machinery) -/

theorem countStep_eq (st : GenState) (name target : String) (p : Nat × Nat)
    (d : String) :
    countStep st name target p d =
      if memberB st name d then
        (if d = target then p.2 + 1 else p.1, p.2 + 1)
      else p := rfl

theorem countFold_snd (st : GenState) (name target : String)
    (l : List String) (p c : Nat) :
    (l.foldl (countStep st name target) (p, c)).2 =
      c + (l.filter (fun d => memberB st name d)).length := by
  induction l generalizing p c with
  | nil => simp
  | cons d rest ih =>
    rw [List.foldl_cons, countStep_eq]
    by_cases hm : memberB st name d
    · rw [if_pos hm, ih, List.filter_cons, if_pos hm, List.length_cons]
      omega
    · rw [if_neg hm, ih, List.filter_cons, if_neg hm]

theorem countFold_fst_notin (st : GenState) (name target : String)
    (l : List String) (h : target ∉ l) (p c : Nat) :
    (l.foldl (countStep st name target) (p, c)).1 = p := by
  induction l generalizing p c with
  | nil => rfl
  | cons d rest ih =>
    have hd : d ≠ target := fun e => h (e ▸ List.mem_cons_self d rest)
    have hrest : target ∉ rest := fun hr => h (List.mem_cons_of_mem d hr)
    rw [List.foldl_cons, countStep_eq]
    by_cases hm : memberB st name d
    · rw [if_pos hm, if_neg hd]
      exact ih hrest p _
    · rw [if_neg hm]
      exact ih hrest p c

theorem countFold_fst (st : GenState) (name target : String) :
    ∀ (l : List String), l.Nodup → target ∈ l →
      memberB st name target = true → ∀ p c : Nat,
      (l.foldl (countStep st name target) (p, c)).1 =
        c + (l.filter (fun d => memberB st name d)).indexOf target + 1
  | [], _, hmem, _, _, _ => absurd hmem (List.not_mem_nil target)
  | d :: rest, hnd, hmem, hatt, p, c => by
    by_cases hd : d = target
    · subst hd
      have hni : d ∉ rest := (List.nodup_cons.mp hnd).1
      rw [List.foldl_cons, countStep_eq, if_pos hatt, if_pos rfl,
        countFold_fst_notin st name d rest hni, List.filter_cons, if_pos hatt,
        List.indexOf_cons_self]
    · have hmem2 : target ∈ rest := by
        rcases List.mem_cons.mp hmem with h | h
        · exact absurd h.symm hd
        · exact h
      have hnd2 : rest.Nodup := (List.nodup_cons.mp hnd).2
      rw [List.foldl_cons, countStep_eq]
      by_cases hm : memberB st name d
      · rw [if_pos hm, if_neg hd,
          countFold_fst st name target rest hnd2 hmem2 hatt _ _,
          List.filter_cons, if_pos hm, List.indexOf_cons_ne _ hd]
        simp only [Nat.succ_eq_add_one]
        omega
      · rw [if_neg hm,
          countFold_fst st name target rest hnd2 hmem2 hatt p c,
          List.filter_cons, if_neg hm]

/-! ### Claim C10 -/

/-- C10: the three call sites that compute a device's position and the
device count on a network — the interface loop of `generate_isis_config`,
the interface loop of `generate_basic_config`, and
`get_router_ip_on_network` — run the identical loop and therefore agree;
the count is the number of devices (scanned in the fixed `st.devices`
order, lexicographically sorted after parsing) having at least one
attachment string `"index:network"` containing the name as a substring
(`memberB`, Python `in` — substring containment, not equality of the
network name), and the position of an attached device is its 1-based rank
among those devices. -/
theorem c10_count_position (st : GenState) (name D : String) :
    countPosIsis st name D = countPosBasic st name D ∧
    countPosIsis st name D = countPosGet st name D ∧
    (countPosIsis st name D).2 =
      (st.devices.filter (fun d => memberB st name d)).length ∧
    (st.devices.Nodup → D ∈ st.devices → memberB st name D = true →
      (countPosIsis st name D).1 =
        (st.devices.filter (fun d => memberB st name d)).indexOf D + 1) := by
  refine ⟨rfl, rfl, ?_, ?_⟩
  · simpa using countFold_snd st name D st.devices 0 0
  · intro hnd hmem hatt
    simpa using countFold_fst st name D st.devices hnd hmem hatt 0 0

/-- Witness for C10 on the §8 scenario lab: on `netA`, device `R1` has
count 2 and position 2 (`PC1` sorts first). -/
theorem c10_count_position_witness :
    countPosIsis (parse_lab_conf DEFAULT_CONFIG c4content) "netA" "R1" =
      countPosGet (parse_lab_conf DEFAULT_CONFIG c4content) "netA" "R1" ∧
    (countPosIsis (parse_lab_conf DEFAULT_CONFIG c4content) "netA" "R1").1 =
      ((parse_lab_conf DEFAULT_CONFIG c4content).devices.filter
        (fun d => memberB (parse_lab_conf DEFAULT_CONFIG c4content) "netA" d)).indexOf "R1" + 1 :=
  ⟨(c10_count_position (parse_lab_conf DEFAULT_CONFIG c4content) "netA" "R1").2.1,
   (c10_count_position (parse_lab_conf DEFAULT_CONFIG c4content) "netA" "R1").2.2.2
     (by decide) (by decide) (by decide)⟩

/-! ### `parse_lab_conf` characterization -/

theorem parseStep_ds (cfg : Config) (acc : ParseAcc) (line : String) :
    (parseStep cfg acc line).ds =
      match parseLine line with
      | none => acc.ds
      | some (dev, _, _) =>
        if acc.ds.contains dev then acc.ds else acc.ds ++ [dev] := by
  cases hpl : parseLine line with
  | none => simp [parseStep, hpl]
  | some t =>
    obtain ⟨dev, prop, value⟩ := t
    simp only [parseStep, hpl]
    split_ifs <;> rfl

theorem parseStep_nets (cfg : Config) (acc : ParseAcc) (line : String) :
    (parseStep cfg acc line).nets =
      match parseLine line with
      | none => acc.nets
      | some (dev, prop, value) =>
        if prop = "image" then acc.nets
        else if pyIsDigit prop then
          aset acc.nets dev
            ((alookup acc.nets dev).getD [] ++ [prop ++ ":" ++ value])
        else acc.nets := by
  cases hpl : parseLine line with
  | none => simp [parseStep, hpl]
  | some t =>
    obtain ⟨dev, prop, value⟩ := t
    simp only [parseStep, hpl]
    split_ifs <;> rfl

theorem parseStep_imgs (cfg : Config) (acc : ParseAcc) (line : String) :
    (parseStep cfg acc line).imgs =
      match parseLine line with
      | none => acc.imgs
      | some (dev, prop, value) =>
        if prop = "image" then aset acc.imgs dev value else acc.imgs := by
  cases hpl : parseLine line with
  | none => simp [parseStep, hpl]
  | some t =>
    obtain ⟨dev, prop, value⟩ := t
    simp only [parseStep, hpl]
    split_ifs <;> rfl

theorem parseStep_tys (cfg : Config) (acc : ParseAcc) (line : String) :
    (parseStep cfg acc line).tys =
      match parseLine line with
      | none => acc.tys
      | some (dev, prop, value) =>
        if prop = "image" then aset acc.tys dev (detect_device_type cfg value)
        else acc.tys := by
  cases hpl : parseLine line with
  | none => simp [parseStep, hpl]
  | some t =>
    obtain ⟨dev, prop, value⟩ := t
    simp only [parseStep, hpl]
    split_ifs <;> rfl

theorem pyIsDigit_image : pyIsDigit "image" = false := rfl

theorem containsB_iff {l : List String} {a : String} :
    l.contains a = true ↔ a ∈ l := List.elem_iff

theorem netsFacts_fold (cfg : Config) :
    ∀ (lines : List String) (acc : ParseAcc) (d : String),
      (alookup (lines.foldl (parseStep cfg) acc).nets d).getD [] =
        (alookup acc.nets d).getD [] ++ netFacts lines d
  | [], acc, d => by simp [netFacts]
  | line :: rest, acc, d => by
    rw [List.foldl_cons, netsFacts_fold cfg rest (parseStep cfg acc line) d,
      parseStep_nets]
    cases hpl : parseLine line with
    | none =>
      simp only [hpl]
      simp [netFacts, List.filterMap_cons, hpl]
    | some t =>
      obtain ⟨dev, prop, value⟩ := t
      simp only [hpl]
      by_cases hi : prop = "image"
      · subst hi
        simp [netFacts, List.filterMap_cons, hpl, pyIsDigit_image]
      · by_cases hdig : pyIsDigit prop
        · rw [if_neg hi, if_pos hdig, alookup_aset]
          by_cases hd : dev = d
          · subst hd
            rw [if_pos rfl]
            simp [netFacts, List.filterMap_cons, hpl, hdig]
          · rw [if_neg hd]
            simp [netFacts, List.filterMap_cons, hpl, hd]
        · rw [if_neg hi, if_neg hdig]
          simp only [netFacts, List.filterMap_cons, hpl]
          by_cases hd : dev = d
          · subst hd
            simp [hdig, netFacts]
          · simp [hd, netFacts]

theorem imgsFacts_fold (cfg : Config) :
    ∀ (lines : List String) (acc : ParseAcc) (d : String),
      alookup (lines.foldl (parseStep cfg) acc).imgs d =
        (imgFacts lines d).foldl (fun _ v => some v) (alookup acc.imgs d)
  | [], acc, d => by simp [imgFacts]
  | line :: rest, acc, d => by
    rw [List.foldl_cons, imgsFacts_fold cfg rest (parseStep cfg acc line) d,
      parseStep_imgs]
    cases hpl : parseLine line with
    | none =>
      simp only [hpl]
      simp [imgFacts, List.filterMap_cons, hpl]
    | some t =>
      obtain ⟨dev, prop, value⟩ := t
      simp only [hpl]
      by_cases hi : prop = "image"
      · subst hi
        rw [if_pos rfl, alookup_aset]
        by_cases hd : dev = d
        · subst hd
          rw [if_pos rfl]
          simp [imgFacts, List.filterMap_cons, hpl]
        · rw [if_neg hd]
          simp [imgFacts, List.filterMap_cons, hpl, hd]
      · rw [if_neg hi]
        simp only [imgFacts, List.filterMap_cons, hpl]
        by_cases hd : dev = d
        · simp [hd, hi, imgFacts]
        · simp [hd, imgFacts]

theorem tysFacts_fold (cfg : Config) :
    ∀ (lines : List String) (acc : ParseAcc) (d : String),
      alookup (lines.foldl (parseStep cfg) acc).tys d =
        (imgFacts lines d).foldl (fun _ v => some (detect_device_type cfg v))
          (alookup acc.tys d)
  | [], acc, d => by simp [imgFacts]
  | line :: rest, acc, d => by
    rw [List.foldl_cons, tysFacts_fold cfg rest (parseStep cfg acc line) d,
      parseStep_tys]
    cases hpl : parseLine line with
    | none =>
      simp only [hpl]
      simp [imgFacts, List.filterMap_cons, hpl]
    | some t =>
      obtain ⟨dev, prop, value⟩ := t
      simp only [hpl]
      by_cases hi : prop = "image"
      · subst hi
        rw [if_pos rfl, alookup_aset]
        by_cases hd : dev = d
        · subst hd
          rw [if_pos rfl]
          simp [imgFacts, List.filterMap_cons, hpl]
        · rw [if_neg hd]
          simp [imgFacts, List.filterMap_cons, hpl, hd]
      · rw [if_neg hi]
        simp only [imgFacts, List.filterMap_cons, hpl]
        by_cases hd : dev = d
        · simp [hd, hi, imgFacts]
        · simp [hd, imgFacts]

theorem dsFacts_mem (cfg : Config) :
    ∀ (lines : List String) (acc : ParseAcc) (d : String),
      d ∈ (lines.foldl (parseStep cfg) acc).ds ↔
        d ∈ acc.ds ∨ ∃ line ∈ lines, ∃ p v, parseLine line = some (d, p, v)
  | [], acc, d => by simp
  | line :: rest, acc, d => by
    rw [List.foldl_cons, dsFacts_mem cfg rest (parseStep cfg acc line) d,
      parseStep_ds]
    cases hpl : parseLine line with
    | none =>
      simp only [hpl]
      constructor
      · rintro (h | ⟨l2, hl2, p, v, hp⟩)
        · exact Or.inl h
        · exact Or.inr ⟨l2, List.mem_cons_of_mem _ hl2, p, v, hp⟩
      · rintro (h | ⟨l2, hl2, p, v, hp⟩)
        · exact Or.inl h
        · rcases List.mem_cons.mp hl2 with h2 | h2
          · subst h2
            rw [hpl] at hp
            cases hp
          · exact Or.inr ⟨l2, h2, p, v, hp⟩
    | some t =>
      obtain ⟨dev, prop, value⟩ := t
      simp only [hpl]
      have hds2 : d ∈ (if acc.ds.contains dev = true then acc.ds
            else acc.ds ++ [dev]) ↔ d ∈ acc.ds ∨ d = dev := by
        by_cases hc : acc.ds.contains dev = true
        · rw [if_pos hc]
          refine ⟨fun h => Or.inl h, fun h => ?_⟩
          rcases h with h | h
          · exact h
          · exact h ▸ containsB_iff.mp hc
        · rw [if_neg hc]
          simp [List.mem_append]
      rw [hds2]
      constructor
      · rintro ((h | h) | ⟨l2, hl2, p, v, hp⟩)
        · exact Or.inl h
        · subst h
          exact Or.inr ⟨line, List.mem_cons_self _ _, prop, value, hpl⟩
        · exact Or.inr ⟨l2, List.mem_cons_of_mem _ hl2, p, v, hp⟩
      · rintro (h | ⟨l2, hl2, p, v, hp⟩)
        · exact Or.inl (Or.inl h)
        · rcases List.mem_cons.mp hl2 with h2 | h2
          · subst h2
            rw [hpl] at hp
            have hinj := Option.some.inj hp
            have hdd : dev = d := congrArg Prod.fst hinj
            exact Or.inl (Or.inr hdd.symm)
          · exact Or.inr ⟨l2, h2, p, v, hp⟩

theorem dsFacts_nodup (cfg : Config) :
    ∀ (lines : List String) (acc : ParseAcc), acc.ds.Nodup →
      (lines.foldl (parseStep cfg) acc).ds.Nodup
  | [], _, h => h
  | line :: rest, acc, h => by
    rw [List.foldl_cons]
    refine dsFacts_nodup cfg rest (parseStep cfg acc line) ?_
    rw [parseStep_ds]
    cases hpl : parseLine line with
    | none => simp only [hpl]; exact h
    | some t =>
      obtain ⟨dev, prop, value⟩ := t
      simp only [hpl]
      by_cases hc : acc.ds.contains dev = true
      · rw [if_pos hc]
        exact h
      · rw [if_neg hc]
        have hni : dev ∉ acc.ds := fun hm => hc (containsB_iff.mpr hm)
        refine List.Nodup.append h (List.nodup_singleton dev) ?_
        intro x hx hx2
        rw [List.mem_singleton] at hx2
        subst hx2
        exact hni hx

theorem defaultsStep_fst (n : List (String × List String))
    (i t : List (String × String)) (d0 : String) :
    (defaultsStep (n, i, t) d0).1 =
      if (alookup n d0).isSome then n else aset n d0 [] := by
  unfold defaultsStep
  dsimp only
  split_ifs <;> rfl

theorem defaultsStep_imgs (n : List (String × List String))
    (i t : List (String × String)) (d0 : String) :
    (defaultsStep (n, i, t) d0).2.1 =
      if (alookup i d0).isSome then i else aset i d0 "unknown" := by
  unfold defaultsStep
  dsimp only
  split_ifs <;> rfl

theorem defaultsStep_tys (n : List (String × List String))
    (i t : List (String × String)) (d0 : String) :
    (defaultsStep (n, i, t) d0).2.2 =
      if (alookup i d0).isSome then t else aset t d0 "generic" := by
  unfold defaultsStep
  dsimp only
  split_ifs <;> rfl

theorem defaults_fold_nets :
    ∀ (devs : List String) (n : List (String × List String))
      (i t : List (String × String)) (d : String),
      (alookup ((devs.foldl defaultsStep (n, i, t)).1) d).getD [] =
        (alookup n d).getD []
  | [], _, _, _, _ => rfl
  | d0 :: devs, n, i, t, d => by
    rw [List.foldl_cons]
    have hrec := defaults_fold_nets devs (defaultsStep (n, i, t) d0).1
      (defaultsStep (n, i, t) d0).2.1 (defaultsStep (n, i, t) d0).2.2 d
    refine Eq.trans hrec ?_
    rw [defaultsStep_fst]
    by_cases hns : (alookup n d0).isSome
    · rw [if_pos hns]
    · rw [if_neg hns, alookup_aset]
      by_cases hd : d0 = d
      · subst hd
        rw [if_pos rfl, Option.not_isSome_iff_eq_none.mp hns]
        rfl
      · rw [if_neg hd]

theorem defaults_fold_imgs_tys :
    ∀ (devs : List String) (n : List (String × List String))
      (i t : List (String × String)) (d : String),
      (alookup i d).isSome = (alookup t d).isSome →
      ((alookup ((devs.foldl defaultsStep (n, i, t)).2.1) d).getD "unknown" =
          (alookup i d).getD "unknown" ∧
        (alookup ((devs.foldl defaultsStep (n, i, t)).2.2) d).getD "generic" =
          (alookup t d).getD "generic")
  | [], _, _, _, _, _ => ⟨rfl, rfl⟩
  | d0 :: devs, n, i, t, d, hdom => by
    rw [List.foldl_cons]
    have hi2 := defaultsStep_imgs n i t d0
    have ht2 := defaultsStep_tys n i t d0
    by_cases hns : (alookup i d0).isSome
    · rw [if_pos hns] at hi2 ht2
      have hrec := defaults_fold_imgs_tys devs (defaultsStep (n, i, t) d0).1
        (defaultsStep (n, i, t) d0).2.1 (defaultsStep (n, i, t) d0).2.2 d
        (by rw [hi2, ht2]; exact hdom)
      refine ⟨hrec.1.trans ?_, hrec.2.trans ?_⟩
      · rw [hi2]
      · rw [ht2]
    · rw [if_neg hns] at hi2 ht2
      have hdom2 : (alookup (defaultsStep (n, i, t) d0).2.1 d).isSome =
          (alookup (defaultsStep (n, i, t) d0).2.2 d).isSome := by
        rw [hi2, ht2, alookup_aset, alookup_aset]
        by_cases hd : d0 = d
        · rw [if_pos hd, if_pos hd]
          rfl
        · rw [if_neg hd, if_neg hd]
          exact hdom
      have hrec := defaults_fold_imgs_tys devs (defaultsStep (n, i, t) d0).1
        (defaultsStep (n, i, t) d0).2.1 (defaultsStep (n, i, t) d0).2.2 d hdom2
      refine ⟨hrec.1.trans ?_, hrec.2.trans ?_⟩
      · rw [hi2, alookup_aset]
        by_cases hd : d0 = d
        · rw [if_pos hd]
          have hin : alookup i d = none := by
            rw [← hd]
            exact Option.not_isSome_iff_eq_none.mp hns
          rw [hin]
          rfl
        · rw [if_neg hd]
      · rw [ht2, alookup_aset]
        by_cases hd : d0 = d
        · rw [if_pos hd]
          have htn : alookup t d = none := by
            have hdom0 : (alookup i d0).isSome = (alookup t d0).isSome := by
              rw [hd]
              exact hdom
            rw [← hd]
            exact Option.not_isSome_iff_eq_none.mp
              (fun hh => hns (hdom0.trans hh))
          rw [htn]
          rfl
        · rw [if_neg hd]

theorem optfold_getD {β : Type} (f : String → β) (l : List String) :
    ∀ (init : Option β) (u : β),
      (l.foldl (fun _ v => some (f v)) init).getD u =
        l.foldl (fun _ v => f v) (init.getD u) := by
  induction l with
  | nil => intro init u; rfl
  | cons a rest ih =>
    intro init u
    rw [List.foldl_cons, List.foldl_cons, ih]
    rfl

theorem optfold_none {β : Type} (f : String → β) :
    ∀ (l : List String) (init : Option β),
      (l.foldl (fun _ v => some (f v)) init) = none ↔ (init = none ∧ l = [])
  | [], init => by simp
  | a :: rest, init => by
    rw [List.foldl_cons, optfold_none f rest (some (f a))]
    simp

/-- Helper shared by C5 and C8: after parsing, a device's interface list is
exactly the sequence of its digit-property fact lines, in input order. -/
theorem networks_char (cfg : Config) (content : List String) (d : String) :
    (parse_lab_conf cfg content).networksOf d = netFacts content d := by
  show (alookup (parse_lab_conf cfg content).device_networks d).getD [] =
    netFacts content d
  unfold parse_lab_conf
  dsimp only
  rw [defaults_fold_nets, netsFacts_fold]
  rfl

/-- Helper: after parsing, a device's image is the value of its last image
fact line, `"unknown"` when it has none. -/
theorem images_char (cfg : Config) (content : List String) (d : String) :
    (parse_lab_conf cfg content).imageOf d =
      (imgFacts content d).foldl (fun _ v => v) "unknown" := by
  show (alookup (parse_lab_conf cfg content).device_images d).getD "unknown" =
    (imgFacts content d).foldl (fun _ v => v) "unknown"
  unfold parse_lab_conf
  dsimp only
  have hi := imgsFacts_fold cfg content ⟨[], [], [], []⟩ d
  have ht := tysFacts_fold cfg content ⟨[], [], [], []⟩ d
  have hdom : (alookup (content.foldl (parseStep cfg) ⟨[], [], [], []⟩).imgs d).isSome =
      (alookup (content.foldl (parseStep cfg) ⟨[], [], [], []⟩).tys d).isSome := by
    rw [hi, ht]
    show (Option.isSome _) = (Option.isSome _)
    by_cases h : imgFacts content d = []
    · rw [h]
      rfl
    · have h1 := (optfold_none (fun v => v) (imgFacts content d) (alookup ([] : List (String × String)) d))
      have h2 := (optfold_none (fun v => detect_device_type cfg v) (imgFacts content d) (alookup ([] : List (String × String)) d))
      rcases ho1 : (imgFacts content d).foldl (fun _ v => some v) (alookup ([] : List (String × String)) d) with _ | v1
      · exact absurd (h1.mp ho1).2 h
      · rcases ho2 : (imgFacts content d).foldl (fun _ v => some (detect_device_type cfg v)) (alookup ([] : List (String × String)) d) with _ | v2
        · exact absurd (h2.mp ho2).2 h
        · rfl
  have hd := defaults_fold_imgs_tys
    (List.insertionSort (fun a b => strLeB a b = true)
      (content.foldl (parseStep cfg) ⟨[], [], [], []⟩).ds)
    (content.foldl (parseStep cfg) ⟨[], [], [], []⟩).nets
    (content.foldl (parseStep cfg) ⟨[], [], [], []⟩).imgs
    (content.foldl (parseStep cfg) ⟨[], [], [], []⟩).tys d hdom
  refine hd.1.trans ?_
  rw [hi, optfold_getD]
  rfl

/-- Helper: after parsing, a device's role is the classification of its last
image fact line, `"generic"` when it has none. -/
theorem types_char (cfg : Config) (content : List String) (d : String) :
    (parse_lab_conf cfg content).typeOf d =
      (imgFacts content d).foldl (fun _ v => detect_device_type cfg v)
        "generic" := by
  show (alookup (parse_lab_conf cfg content).device_types d).getD "generic" =
    (imgFacts content d).foldl (fun _ v => detect_device_type cfg v) "generic"
  unfold parse_lab_conf
  dsimp only
  have hi := imgsFacts_fold cfg content ⟨[], [], [], []⟩ d
  have ht := tysFacts_fold cfg content ⟨[], [], [], []⟩ d
  have hdom : (alookup (content.foldl (parseStep cfg) ⟨[], [], [], []⟩).imgs d).isSome =
      (alookup (content.foldl (parseStep cfg) ⟨[], [], [], []⟩).tys d).isSome := by
    rw [hi, ht]
    by_cases h : imgFacts content d = []
    · rw [h]
      rfl
    · have h1 := (optfold_none (fun v => v) (imgFacts content d) (alookup ([] : List (String × String)) d))
      have h2 := (optfold_none (fun v => detect_device_type cfg v) (imgFacts content d) (alookup ([] : List (String × String)) d))
      rcases ho1 : (imgFacts content d).foldl (fun _ v => some v) (alookup ([] : List (String × String)) d) with _ | v1
      · exact absurd (h1.mp ho1).2 h
      · rcases ho2 : (imgFacts content d).foldl (fun _ v => some (detect_device_type cfg v)) (alookup ([] : List (String × String)) d) with _ | v2
        · exact absurd (h2.mp ho2).2 h
        · rfl
  have hd := defaults_fold_imgs_tys
    (List.insertionSort (fun a b => strLeB a b = true)
      (content.foldl (parseStep cfg) ⟨[], [], [], []⟩).ds)
    (content.foldl (parseStep cfg) ⟨[], [], [], []⟩).nets
    (content.foldl (parseStep cfg) ⟨[], [], [], []⟩).imgs
    (content.foldl (parseStep cfg) ⟨[], [], [], []⟩).tys d hdom
  refine hd.2.trans ?_
  rw [ht, optfold_getD]
  rfl

/-- Helper: the parsed device list has no duplicates. -/
theorem parse_devices_nodup (cfg : Config) (content : List String) :
    (parse_lab_conf cfg content).devices.Nodup := by
  show (List.insertionSort (fun a b => strLeB a b = true)
    (content.foldl (parseStep cfg) ⟨[], [], [], []⟩).ds).Nodup
  have hperm := List.perm_insertionSort (fun a b => strLeB a b = true)
    (content.foldl (parseStep cfg) ⟨[], [], [], []⟩).ds
  exact hperm.nodup_iff.mpr
    (dsFacts_nodup cfg content ⟨[], [], [], []⟩ List.nodup_nil)

/-- Helper: the parsed device list is sorted in strictly increasing
code-point lexicographic order. -/
theorem parse_devices_sorted (cfg : Config) (content : List String) :
    (parse_lab_conf cfg content).devices.Sorted
      (fun a b => strLtB a b = true) := by
  have hle : (parse_lab_conf cfg content).devices.Sorted
      (fun a b => strLeB a b = true) :=
    List.sorted_insertionSort (fun a b => strLeB a b = true) _
  have hnd := parse_devices_nodup cfg content
  exact (List.Pairwise.and hle hnd).imp
    (fun h => strLt_of_le_of_ne h.1 h.2)

/-- Helper: membership in the parsed device list is appearance on the
left-hand side of some fact line. -/
theorem parse_devices_mem (cfg : Config) (content : List String) (d : String) :
    d ∈ (parse_lab_conf cfg content).devices ↔ appearsLHS content d := by
  show d ∈ List.insertionSort (fun a b => strLeB a b = true)
    (content.foldl (parseStep cfg) ⟨[], [], [], []⟩).ds ↔ _
  rw [List.mem_insertionSort, dsFacts_mem cfg content ⟨[], [], [], []⟩ d]
  simp [appearsLHS]

/-! ### Claim C5 (corrected) -/

/-- C5 counterexample: the claim says a second fact line with the same
interface index overwrites the first (last write wins), so the interface
list should hold at most one entry per index.  The source instead *appends*
every digit-property fact to the device's list: on the two lines
`A[0]=net1` and `A[0]=net2`, device `A` ends up with both entries, two of
them with index `0`. -/
theorem c5_duplicate_counterexample :
    (parse_lab_conf DEFAULT_CONFIG c5content).networksOf "A" =
      ["0:net1", "0:net2"] ∧
    (((parse_lab_conf DEFAULT_CONFIG c5content).networksOf "A").filter
      (fun e => listIsPrefixOf ['0', ':'] e.data)).length = 2 :=
  ⟨rfl, rfl⟩

/-- C5 (amended): nothing overwrites — for every device, the parsed
interface list is exactly the sequence of that device's digit-property fact
lines in input order, so two fact lines with the same interface index
produce two retained entries (duplicates accumulate). -/
theorem c5_interfaces_append (cfg : Config) (content : List String)
    (d : String) :
    (parse_lab_conf cfg content).networksOf d = netFacts content d :=
  networks_char cfg content d

/-! ### Claim C8 -/

/-- C8: after parsing, the device list is strictly sorted in code-point
lexicographic order (hence each name that appeared on the left-hand side of
a fact line occurs exactly once — conjuncts 1–3), devices with no image
fact line get image `"unknown"` and role `"generic"`, and the images, roles
and interface lists are determined by the image and digit fact lines alone
(conjuncts 4–6): a fact line whose property is neither `image` nor a digit
string contributes its device name and nothing else. -/
theorem c8_parse_invariants (cfg : Config) (content : List String) :
    (parse_lab_conf cfg content).devices.Sorted
      (fun a b => strLtB a b = true) ∧
    (∀ d, d ∈ (parse_lab_conf cfg content).devices ↔ appearsLHS content d) ∧
    (∀ d, d ∈ (parse_lab_conf cfg content).devices →
      (parse_lab_conf cfg content).devices.count d = 1) ∧
    (∀ d, (parse_lab_conf cfg content).imageOf d =
      (imgFacts content d).foldl (fun _ v => v) "unknown") ∧
    (∀ d, (parse_lab_conf cfg content).typeOf d =
      (imgFacts content d).foldl (fun _ v => detect_device_type cfg v)
        "generic") ∧
    (∀ d, (parse_lab_conf cfg content).networksOf d = netFacts content d) :=
  ⟨parse_devices_sorted cfg content,
   fun d => parse_devices_mem cfg content d,
   fun d hd => List.count_eq_one_of_mem (parse_devices_nodup cfg content) hd,
   fun d => images_char cfg content d,
   fun d => types_char cfg content d,
   fun d => networks_char cfg content d⟩

/-- Witness for C8 on a lab whose only facts are an unrecognized property
line for `X` and an interface line for `B`: `X` is present exactly once,
with image `"unknown"` and role `"generic"` and no interfaces. -/
theorem c8_parse_invariants_witness :
    "X" ∈ (parse_lab_conf DEFAULT_CONFIG ["X[foo]=bar", "B[0]=n1"]).devices ∧
    (parse_lab_conf DEFAULT_CONFIG ["X[foo]=bar", "B[0]=n1"]).devices.count "X" = 1 ∧
    (parse_lab_conf DEFAULT_CONFIG ["X[foo]=bar", "B[0]=n1"]).imageOf "X" = "unknown" ∧
    (parse_lab_conf DEFAULT_CONFIG ["X[foo]=bar", "B[0]=n1"]).typeOf "X" = "generic" ∧
    (parse_lab_conf DEFAULT_CONFIG ["X[foo]=bar", "B[0]=n1"]).networksOf "X" = [] := by
  have h := c8_parse_invariants DEFAULT_CONFIG ["X[foo]=bar", "B[0]=n1"]
  have hm : "X" ∈ (parse_lab_conf DEFAULT_CONFIG ["X[foo]=bar", "B[0]=n1"]).devices :=
    (h.2.1 "X").mpr ⟨"X[foo]=bar", by decide, "foo", "bar", rfl⟩
  exact ⟨hm, h.2.2.1 "X" hm, (h.2.2.2.1 "X").trans rfl,
    (h.2.2.2.2.1 "X").trans rfl, (h.2.2.2.2.2 "X").trans rfl⟩

/-! ### File-output lemmas -/

theorem data_append (a b : String) : (a ++ b).data = a.data ++ b.data := by
  cases a
  cases b
  rfl

theorem startup_inj {a b : String} (h : a ++ ".startup" = b ++ ".startup") :
    a = b := by
  have hd := congrArg String.data h
  rw [data_append, data_append] at hd
  exact strData_inj (List.append_cancel_right hd)

theorem fsLookup_fsWrite (fs : FS) (n : String) (c : FileContent)
    (m : String) :
    fsLookup (fsWrite fs n c) m = if n = m then some c else fsLookup fs m :=
  alookup_aset fs n c m

theorem fsHas_eq (fs : FS) (n : String) :
    fsHas fs n = (fsLookup fs n).isSome := rfl

theorem fsWrite_id {fs : FS} {n : String} {c : FileContent}
    (h : fsLookup fs n = some c) : fsWrite fs n c = fs :=
  aset_of_lookup_eq fs n c h

theorem fsHas_fsWrite (fs : FS) (n : String) (c : FileContent) (m : String) :
    fsHas (fsWrite fs n c) m = true ↔ (n = m ∨ fsHas fs m = true) := by
  unfold fsHas fsWrite
  rw [show alookup (aset fs n c) m = if n = m then some c else alookup fs m
    from alookup_aset fs n c m]
  by_cases h : n = m <;> simp [h]

theorem routerPass_cons (st : GenState) (cfg : Config) (frr : List String)
    (p : Nat × String) (l : List (Nat × String)) (fs : FS) :
    routerPass st cfg frr (p :: l) fs =
      routerPass st cfg frr l
        (fsWrite fs (p.2 ++ ".startup")
          (.routerFile (generate_isis_config st cfg p.2 p.1 frr))) := rfl

theorem basicPass_cons (st : GenState) (cfg : Config) (frr : List String)
    (d : String) (l : List String) (fs : FS) :
    basicPass st cfg frr (d :: l) fs =
      basicPass st cfg frr l
        (if frr.contains d then fs
         else generate_basic_config st cfg d frr fs) := rfl

theorem gbc_has (st : GenState) (cfg : Config) (d : String)
    (frr : List String) (fs : FS) (h : fsHas fs (d ++ ".startup") = true) :
    generate_basic_config st cfg d frr fs = fs := by
  unfold generate_basic_config
  rw [if_pos h]

theorem gbc_not_has (st : GenState) (cfg : Config) (d : String)
    (frr : List String) (fs : FS) (h : ¬fsHas fs (d ++ ".startup") = true) :
    generate_basic_config st cfg d frr fs =
      fsWrite fs (d ++ ".startup")
        (.basicFile (basicScriptFor st cfg d frr)) := by
  unfold generate_basic_config
  rw [if_neg h]

theorem routerPass_lookup_other (st : GenState) (cfg : Config)
    (frr : List String) :
    ∀ (l : List (Nat × String)) (fs : FS) (n : String),
      (∀ p ∈ l, p.2 ++ ".startup" ≠ n) →
      fsLookup (routerPass st cfg frr l fs) n = fsLookup fs n
  | [], _, _, _ => rfl
  | p :: l, fs, n, h => by
    rw [routerPass_cons,
      routerPass_lookup_other st cfg frr l _ n
        (fun q hq => h q (List.mem_cons_of_mem _ hq)),
      fsLookup_fsWrite, if_neg (h p (List.mem_cons_self _ _))]

theorem routerPass_lookup_mem (st : GenState) (cfg : Config)
    (frr : List String) :
    ∀ (l : List (Nat × String)) (fs : FS) (i : Nat) (r : String),
      (l.map Prod.snd).Nodup → (i, r) ∈ l →
      fsLookup (routerPass st cfg frr l fs) (r ++ ".startup") =
        some (.routerFile (generate_isis_config st cfg r i frr))
  | [], _, _, _, _, hm => absurd hm (List.not_mem_nil _)
  | q :: l, fs, i, r, hnd, hm => by
    rw [routerPass_cons]
    have hnd2 : (q.2 :: l.map Prod.snd).Nodup := by
      rw [List.map_cons] at hnd
      exact hnd
    rcases List.mem_cons.mp hm with he | hm2
    · cases he
      have hq : r ∉ l.map Prod.snd := (List.nodup_cons.mp hnd2).1
      have hqn : ∀ p ∈ l, p.2 ++ ".startup" ≠ r ++ ".startup" := by
        intro p hp hcon
        exact hq ((startup_inj hcon) ▸ List.mem_map_of_mem Prod.snd hp)
      rw [routerPass_lookup_other st cfg frr l _ _ hqn, fsLookup_fsWrite,
        if_pos rfl]
    · exact routerPass_lookup_mem st cfg frr l _ i r
        (List.nodup_cons.mp hnd2).2 hm2

theorem routerPass_id (st : GenState) (cfg : Config) (frr : List String) :
    ∀ (l : List (Nat × String)) (fs : FS),
      (∀ p ∈ l, fsLookup fs (p.2 ++ ".startup") =
        some (.routerFile (generate_isis_config st cfg p.2 p.1 frr))) →
      routerPass st cfg frr l fs = fs
  | [], _, _ => rfl
  | p :: l, fs, h => by
    rw [routerPass_cons, fsWrite_id (h p (List.mem_cons_self _ _))]
    exact routerPass_id st cfg frr l fs
      (fun q hq => h q (List.mem_cons_of_mem _ hq))

theorem basicPass_mono (st : GenState) (cfg : Config) (frr : List String) :
    ∀ (l : List String) (fs : FS) (n : String), fsHas fs n = true →
      fsHas (basicPass st cfg frr l fs) n = true
  | [], _, _, h => h
  | d :: l, fs, n, h => by
    rw [basicPass_cons]
    refine basicPass_mono st cfg frr l _ n ?_
    by_cases hc : frr.contains d
    · rw [if_pos hc]
      exact h
    · rw [if_neg hc]
      by_cases hh : fsHas fs (d ++ ".startup") = true
      · rw [gbc_has _ _ _ _ _ hh]
        exact h
      · rw [gbc_not_has _ _ _ _ _ hh]
        exact (fsHas_fsWrite _ _ _ _).mpr (Or.inr h)

theorem basicPass_lookup_keep (st : GenState) (cfg : Config)
    (frr : List String) :
    ∀ (l : List String) (fs : FS) (d : String),
      fsHas fs (d ++ ".startup") = true →
      fsLookup (basicPass st cfg frr l fs) (d ++ ".startup") =
        fsLookup fs (d ++ ".startup")
  | [], _, _, _ => rfl
  | e :: l, fs, d, h => by
    rw [basicPass_cons]
    by_cases hc : frr.contains e
    · rw [if_pos hc]
      exact basicPass_lookup_keep st cfg frr l fs d h
    · rw [if_neg hc]
      by_cases hh : fsHas fs (e ++ ".startup") = true
      · rw [gbc_has _ _ _ _ _ hh]
        exact basicPass_lookup_keep st cfg frr l fs d h
      · rw [gbc_not_has _ _ _ _ _ hh]
        by_cases hed : e = d
        · subst hed
          exact absurd h hh
        · have hw : fsLookup (fsWrite fs (e ++ ".startup")
              (.basicFile (basicScriptFor st cfg e frr))) (d ++ ".startup") =
              fsLookup fs (d ++ ".startup") := by
            rw [fsLookup_fsWrite, if_neg (fun hcon => hed (startup_inj hcon))]
          rw [basicPass_lookup_keep st cfg frr l _ d
            (by rw [fsHas_eq, hw, ← fsHas_eq]; exact h), hw]

theorem basicPass_lookup_other (st : GenState) (cfg : Config)
    (frr : List String) :
    ∀ (l : List String) (fs : FS) (n : String),
      (∀ d ∈ l, frr.contains d = false → d ++ ".startup" ≠ n) →
      fsLookup (basicPass st cfg frr l fs) n = fsLookup fs n
  | [], _, _, _ => rfl
  | e :: l, fs, n, h => by
    rw [basicPass_cons]
    by_cases hc : frr.contains e
    · rw [if_pos hc]
      exact basicPass_lookup_other st cfg frr l fs n
        (fun d hd => h d (List.mem_cons_of_mem _ hd))
    · have hc2 : frr.contains e = false := by
        revert hc
        cases frr.contains e <;> simp
      rw [if_neg hc]
      by_cases hh : fsHas fs (e ++ ".startup") = true
      · rw [gbc_has _ _ _ _ _ hh]
        exact basicPass_lookup_other st cfg frr l fs n
          (fun d hd => h d (List.mem_cons_of_mem _ hd))
      · rw [gbc_not_has _ _ _ _ _ hh,
          basicPass_lookup_other st cfg frr l _ n
            (fun d hd => h d (List.mem_cons_of_mem _ hd)),
          fsLookup_fsWrite, if_neg (h e (List.mem_cons_self _ _) hc2)]

theorem basicPass_ensures (st : GenState) (cfg : Config) (frr : List String) :
    ∀ (l : List String) (fs : FS) (d : String), d ∈ l →
      frr.contains d = false →
      fsHas (basicPass st cfg frr l fs) (d ++ ".startup") = true
  | [], _, _, hm, _ => absurd hm (List.not_mem_nil _)
  | e :: l, fs, d, hm, hnc => by
    rw [basicPass_cons]
    rcases List.mem_cons.mp hm with he | hm2
    · subst he
      rw [hnc, if_neg Bool.false_ne_true]
      by_cases hh : fsHas fs (d ++ ".startup") = true
      · rw [gbc_has _ _ _ _ _ hh]
        exact basicPass_mono st cfg frr l fs _ hh
      · rw [gbc_not_has _ _ _ _ _ hh]
        exact basicPass_mono st cfg frr l _ _
          ((fsHas_fsWrite _ _ _ _).mpr (Or.inl rfl))
    · exact basicPass_ensures st cfg frr l _ d hm2 hnc

theorem basicPass_id (st : GenState) (cfg : Config) (frr : List String) :
    ∀ (l : List String) (fs : FS),
      (∀ d ∈ l, frr.contains d = false →
        fsHas fs (d ++ ".startup") = true) →
      basicPass st cfg frr l fs = fs
  | [], _, _ => rfl
  | e :: l, fs, h => by
    rw [basicPass_cons]
    by_cases hc : frr.contains e
    · rw [if_pos hc]
      exact basicPass_id st cfg frr l fs
        (fun d hd => h d (List.mem_cons_of_mem _ hd))
    · have hc2 : frr.contains e = false := by
        revert hc
        cases frr.contains e <;> simp
      rw [if_neg hc, gbc_has _ _ _ _ _ (h e (List.mem_cons_self _ _) hc2)]
      exact basicPass_id st cfg frr l fs
        (fun d hd => h d (List.mem_cons_of_mem _ hd))

/-! ### Claim C6 -/

/-- C6: when no parsed device has role router, the run exits successfully
(exit code 0, mirroring `sys.exit(0)` in `identify_frr_routers`) and the
output directory is untouched — no `.startup` file is produced for any
device, router or not. -/
theorem c6_no_routers (cfg : Config) (content : List String) (fs0 : FS)
    (h : ∀ d ∈ (parse_lab_conf cfg content).devices,
      (parse_lab_conf cfg content).typeOf d ≠ "router") :
    run cfg content fs0 = ⟨0, fs0⟩ := by
  have hfrr : identify_frr_routers (parse_lab_conf cfg content) = [] := by
    unfold identify_frr_routers
    rw [List.filter_eq_nil_iff]
    intro d hd
    simpa using h d hd
  simp [run, hfrr]

/-- Witness for C6: a lab with one `alpine` device (role `pc`) exits 0
producing no files. -/
theorem c6_no_routers_witness :
    run DEFAULT_CONFIG ["PC1[image]=alpine"] [] = ⟨0, []⟩ :=
  c6_no_routers DEFAULT_CONFIG ["PC1[image]=alpine"] [] (by decide)

/-! ### Claim C7 -/

theorem run_unfold (cfg : Config) (content : List String) (fs0 : FS)
    (h : (identify_frr_routers (parse_lab_conf cfg content)).isEmpty = false) :
    run cfg content fs0 =
      ⟨0, basicPass (parse_lab_conf cfg content) cfg
            (identify_frr_routers (parse_lab_conf cfg content))
            (parse_lab_conf cfg content).devices
            (routerPass (parse_lab_conf cfg content) cfg
              (identify_frr_routers (parse_lab_conf cfg content))
              (identify_frr_routers (parse_lab_conf cfg content)).enum fs0)⟩ := by
  simp [run, h]

/-- Core lemma: after one router pass and one basic pass, every router file
holds the freshly generated content, every non-router device's file exists,
a second pair of passes is the identity, and a pre-existing non-router file
is untouched. -/
theorem passes_core (st : GenState) (cfg : Config) (frr devs : List String)
    (fs0 : FS) (hfrrnd : frr.Nodup) :
    (∀ p ∈ frr.enum,
      fsLookup (basicPass st cfg frr devs
          (routerPass st cfg frr frr.enum fs0)) (p.2 ++ ".startup") =
        some (.routerFile (generate_isis_config st cfg p.2 p.1 frr))) ∧
    (∀ d ∈ devs, frr.contains d = false →
      fsHas (basicPass st cfg frr devs
        (routerPass st cfg frr frr.enum fs0)) (d ++ ".startup") = true) ∧
    (basicPass st cfg frr devs (routerPass st cfg frr frr.enum
        (basicPass st cfg frr devs (routerPass st cfg frr frr.enum fs0))) =
      basicPass st cfg frr devs (routerPass st cfg frr frr.enum fs0)) ∧
    (∀ d ∈ devs, frr.contains d = false →
      fsHas fs0 (d ++ ".startup") = true →
      fsLookup (basicPass st cfg frr devs
          (routerPass st cfg frr frr.enum fs0)) (d ++ ".startup") =
        fsLookup fs0 (d ++ ".startup")) := by
  have hmapnd : (frr.enum.map Prod.snd).Nodup := by
    rw [List.enum_map_snd]
    exact hfrrnd
  have hmem_snd : ∀ p ∈ frr.enum, p.2 ∈ frr := by
    intro p hp
    have := List.mem_map_of_mem Prod.snd hp
    rwa [List.enum_map_snd] at this
  have hA : ∀ p ∈ frr.enum,
      fsLookup (routerPass st cfg frr frr.enum fs0) (p.2 ++ ".startup") =
        some (.routerFile (generate_isis_config st cfg p.2 p.1 frr)) := by
    intro p hp
    exact routerPass_lookup_mem st cfg frr frr.enum fs0 p.1 p.2 hmapnd hp
  have hBother : ∀ (fsx : FS), ∀ p ∈ frr.enum,
      fsLookup (basicPass st cfg frr devs fsx) (p.2 ++ ".startup") =
        fsLookup fsx (p.2 ++ ".startup") := by
    intro fsx p hp
    refine basicPass_lookup_other st cfg frr devs fsx _ ?_
    intro d hd hnc hcon
    have hdn : d ∉ frr := by
      intro hin
      have h1 := containsB_iff.mpr hin
      rw [hnc] at h1
      exact absurd h1 Bool.false_ne_true
    exact hdn ((startup_inj hcon) ▸ hmem_snd p hp)
  have part1 : ∀ p ∈ frr.enum,
      fsLookup (basicPass st cfg frr devs
          (routerPass st cfg frr frr.enum fs0)) (p.2 ++ ".startup") =
        some (.routerFile (generate_isis_config st cfg p.2 p.1 frr)) :=
    fun p hp => (hBother _ p hp).trans (hA p hp)
  have part2 : ∀ d ∈ devs, frr.contains d = false →
      fsHas (basicPass st cfg frr devs
        (routerPass st cfg frr frr.enum fs0)) (d ++ ".startup") = true :=
    fun d hd hnc => basicPass_ensures st cfg frr devs _ d hd hnc
  refine ⟨part1, part2, ?_, ?_⟩
  · rw [routerPass_id st cfg frr frr.enum _ part1]
    exact basicPass_id st cfg frr devs _ part2
  · intro d hd hnc hhas
    have hrp : fsLookup (routerPass st cfg frr frr.enum fs0)
        (d ++ ".startup") = fsLookup fs0 (d ++ ".startup") := by
      refine routerPass_lookup_other st cfg frr frr.enum fs0 _ ?_
      intro p hp hcon
      have h1 := containsB_iff.mpr ((startup_inj hcon) ▸ hmem_snd p hp)
      rw [hnc] at h1
      exact absurd h1 Bool.false_ne_true
    have hhas1 : fsHas (routerPass st cfg frr frr.enum fs0)
        (d ++ ".startup") = true := by
      rw [fsHas_eq, hrp, ← fsHas_eq]
      exact hhas
    exact (basicPass_lookup_keep st cfg frr devs _ d hhas1).trans hrp

/-- C7: running the generator a second time on identical input and
configuration leaves the output directory unchanged: every router's
`.startup` file holds exactly the freshly generated content — routers are
regenerated unconditionally, whatever the starting directory held — and for
every non-router device whose file already existed before the first run,
generation is skipped and the file is left untouched.  (Byte-identity of
router files across the two runs is the equality of their generated
content.) -/
theorem c7_idempotence (cfg : Config) (content : List String) (fs0 : FS) :
    (run cfg content (run cfg content fs0).fs).fs = (run cfg content fs0).fs ∧
    (∀ p ∈ (identify_frr_routers (parse_lab_conf cfg content)).enum,
      fsLookup (run cfg content fs0).fs (p.2 ++ ".startup") =
        some (.routerFile (generate_isis_config (parse_lab_conf cfg content)
          cfg p.2 p.1 (identify_frr_routers (parse_lab_conf cfg content))))) ∧
    (∀ d ∈ (parse_lab_conf cfg content).devices,
      (identify_frr_routers (parse_lab_conf cfg content)).contains d = false →
      fsHas fs0 (d ++ ".startup") = true →
      fsLookup (run cfg content fs0).fs (d ++ ".startup") =
        fsLookup fs0 (d ++ ".startup")) := by
  by_cases hfe :
      (identify_frr_routers (parse_lab_conf cfg content)).isEmpty = true
  · have hnil : identify_frr_routers (parse_lab_conf cfg content) = [] := by
      cases h : identify_frr_routers (parse_lab_conf cfg content) with
      | nil => rfl
      | cons a l =>
        rw [h] at hfe
        simp at hfe
    have hrun : run cfg content fs0 = ⟨0, fs0⟩ := by simp [run, hfe]
    refine ⟨?_, ?_, ?_⟩
    · simp [hrun]
    · intro p hp
      rw [hnil] at hp
      simp at hp
    · intro d hd hnc hhas
      simp [hrun]
  · have hfe2 : (identify_frr_routers
        (parse_lab_conf cfg content)).isEmpty = false := by
      revert hfe
      cases (identify_frr_routers (parse_lab_conf cfg content)).isEmpty <;>
        simp
    have hcore := passes_core (parse_lab_conf cfg content) cfg
      (identify_frr_routers (parse_lab_conf cfg content))
      (parse_lab_conf cfg content).devices fs0
      (List.Nodup.filter _ (parse_devices_nodup cfg content))
    refine ⟨?_, ?_, ?_⟩
    · rw [run_unfold cfg content _ hfe2, run_unfold cfg content fs0 hfe2]
      exact hcore.2.2.1
    · intro p hp
      rw [run_unfold cfg content fs0 hfe2]
      exact hcore.1 p hp
    · intro d hd hnc hhas
      rw [run_unfold cfg content fs0 hfe2]
      exact hcore.2.2.2 d hd hnc hhas

/-- Witness for C7 on the §8 scenario, starting from a directory that
already holds a `PC1.startup` file: the second run changes nothing, the
router file holds the generated content regardless of the pre-existing
state, and `PC1`'s pre-existing file is untouched. -/
theorem c7_idempotence_witness :
    (run DEFAULT_CONFIG c4content
        (run DEFAULT_CONFIG c4content
          [("PC1.startup", .basicFile ⟨"PC1", "x", "x", [], none, "x"⟩)]).fs).fs =
      (run DEFAULT_CONFIG c4content
        [("PC1.startup", .basicFile ⟨"PC1", "x", "x", [], none, "x"⟩)]).fs ∧
    fsLookup (run DEFAULT_CONFIG c4content
        [("PC1.startup", .basicFile ⟨"PC1", "x", "x", [], none, "x"⟩)]).fs
        "R1.startup" =
      some (.routerFile (generate_isis_config
        (parse_lab_conf DEFAULT_CONFIG c4content) DEFAULT_CONFIG "R1" 0
        (identify_frr_routers (parse_lab_conf DEFAULT_CONFIG c4content)))) ∧
    fsLookup (run DEFAULT_CONFIG c4content
        [("PC1.startup", .basicFile ⟨"PC1", "x", "x", [], none, "x"⟩)]).fs
        "PC1.startup" =
      some (.basicFile ⟨"PC1", "x", "x", [], none, "x"⟩) := by
  have h := c7_idempotence DEFAULT_CONFIG c4content
    [("PC1.startup", .basicFile ⟨"PC1", "x", "x", [], none, "x"⟩)]
  refine ⟨h.1, ?_, ?_⟩
  · exact h.2.1 (0, "R1") (by decide)
  · exact (h.2.2 "PC1" (by decide) (by decide) rfl).trans rfl

/-! ### Claim C4 (corrected) -/

/-- C4 counterexample: on the §8 scenario input, the claim's role and
numbering are wrong.  `PC1`'s image `alpine` matches `PC_PATTERNS`, so its
role is `"pc"`, not `"generic"`; and positions follow the lexicographically
sorted device order `[PC1, R1]`, so `R1` is at position 2 and its generated
address ends in `.2/30` — not position 1 / `.1/30` as claimed (the MD5
subnet number of `"netA"` is 60). -/
theorem c4_scenario_counterexample :
    ¬ ((parse_lab_conf DEFAULT_CONFIG c4content).typeOf "PC1" = "generic" ∧
       (generate_isis_config (parse_lab_conf DEFAULT_CONFIG c4content)
           DEFAULT_CONFIG "R1" 0 ["R1"]).ifaces =
         [⟨"0", "10.0.60.1/30", "netA"⟩]) ∧
    (parse_lab_conf DEFAULT_CONFIG c4content).typeOf "PC1" = "pc" ∧
    countPosIsis (parse_lab_conf DEFAULT_CONFIG c4content) "netA" "R1" =
      (2, 2) := by
  refine ⟨fun hcon => ?_, rfl, rfl⟩
  have h1 : (parse_lab_conf DEFAULT_CONFIG c4content).typeOf "PC1" = "pc" :=
    rfl
  rw [h1] at hcon
  exact absurd hcon.1 (by decide)

/-- C4 (amended): on the input `R1[image]="frr"`, `PC1[image]="alpine"`,
`R1[0]="netA"`, `PC1[0]="netA"`, both devices get `/30` addresses on
`PTP_SUBNET` with the MD5-derived subnet number 60 of the non-numeric name
`netA`; positions follow sorted device order, so PC1 (position 1) gets
`10.0.60.1/30` and R1 (position 2) gets `10.0.60.2/30`; PC1's default route
targets R1's host address `10.0.60.2`; R1 is classified `router` and PC1
`pc`.  The run writes exactly these contents. -/
theorem c4_scenario_amended :
    pyParseInt "netA" = none ∧
    subnet_num "netA" = 60 ∧
    (parse_lab_conf DEFAULT_CONFIG c4content).typeOf "R1" = "router" ∧
    (parse_lab_conf DEFAULT_CONFIG c4content).typeOf "PC1" = "pc" ∧
    identify_frr_routers (parse_lab_conf DEFAULT_CONFIG c4content) = ["R1"] ∧
    (generate_isis_config (parse_lab_conf DEFAULT_CONFIG c4content)
        DEFAULT_CONFIG "R1" 0 ["R1"]).ifaces =
      [⟨"0", "10.0.60.2/30", "netA"⟩] ∧
    (basicScriptFor (parse_lab_conf DEFAULT_CONFIG c4content)
        DEFAULT_CONFIG "PC1" ["R1"]).ifaces = [⟨"0", "10.0.60.1/30"⟩] ∧
    (basicScriptFor (parse_lab_conf DEFAULT_CONFIG c4content)
        DEFAULT_CONFIG "PC1" ["R1"]).gateway = some "10.0.60.2" ∧
    fsLookup (run DEFAULT_CONFIG c4content []).fs "R1.startup" =
      some (.routerFile (generate_isis_config
        (parse_lab_conf DEFAULT_CONFIG c4content) DEFAULT_CONFIG "R1" 0
        ["R1"])) ∧
    fsLookup (run DEFAULT_CONFIG c4content []).fs "PC1.startup" =
      some (.basicFile (basicScriptFor
        (parse_lab_conf DEFAULT_CONFIG c4content) DEFAULT_CONFIG "PC1"
        ["R1"])) :=
  ⟨rfl, rfl, rfl, rfl, rfl, rfl, rfl, rfl, rfl, rfl⟩

end KatharaGen
